import Mathlib

/-!
Verification of the switchboard routing engine.

This file gives a shallow embedding of the router, evaluator, task-type
classifier and HTTP error mapping of the repository, and proves the frozen
claims about them.  JavaScript numbers are modelled as rationals (ℚ); the
JS number has no NaN here, which only matters where a comment says so.
Wall-clock readings (`Date.now()`), adapter replies and the exit status of
the external code-evaluation command are oracle inputs threaded through an
explicit `World` state, consumed one at a time, in the order the source
consumes them.
-/

namespace Switchboard

/-- Task types (`src/core/types.ts`). -/
inductive TaskType
  | code
  | reasoning
  | research
  | rewrite
  | default
deriving DecidableEq

/-- Message roles (`src/core/types.ts`). -/
inductive Role
  | system
  | user
  | assistant
  | tool
deriving DecidableEq

/-- A chat message (`src/core/types.ts`). -/
structure Msg where
  role : Role
  content : String
deriving DecidableEq

/-! ### String scanning primitives

The evaluator and the task-type classifier work over JS strings with
`includes`, `trim`, `toLowerCase` and a handful of regular expressions.
These are modelled over `List Char` (ASCII view of the JS string). -/

/-- The JS regex word-character class: ASCII letters, digits and underscore. -/
def isWordChar (c : Char) : Bool :=
  c.isAlpha || c.isDigit || c = '_'

/-- Per-character lowercasing (ASCII model of JS `toLowerCase`). -/
def lowerChars (s : List Char) : List Char := s.map Char.toLower

/-- Whitespace stripped by JS `trim` (ASCII subset). -/
def isSpaceChar (c : Char) : Bool := c = ' ' || c = '\t' || c = '\n' || c = '\r'

/-- Model of JS `String.prototype.trim`. -/
def trimChars (s : List Char) : List Char :=
  ((s.dropWhile isSpaceChar).reverse.dropWhile isSpaceChar).reverse

/-- Does `pat` occur at the very start of `s`? -/
def headMatch : List Char → List Char → Bool
  | [], _ => true
  | _ :: _, [] => false
  | p :: ps, c :: cs => p = c && headMatch ps cs

/-- Plain substring test, model of JS `String.prototype.includes`. -/
def containsSeq (pat : List Char) : List Char → Bool
  | [] => headMatch pat []
  | c :: cs => headMatch pat (c :: cs) || containsSeq pat cs

/-- A regex word boundary between the previous character (if any) and the
character `first`. -/
def preBoundary (prev : Option Char) (first : Char) : Bool :=
  match prev with
  | none => isWordChar first
  | some p => isWordChar p != isWordChar first

/-- A regex word boundary between the character `last` and the rest of the
string. -/
def postBoundary (last : Char) (rest : List Char) : Bool :=
  match rest with
  | [] => isWordChar last
  | c :: _ => isWordChar last != isWordChar c

/-- Does `pat` occur at the current position of `s`, with word boundaries on
both sides?  `prev` is the character just before the current position. -/
def boundedHere (prev : Option Char) (pat s : List Char) : Bool :=
  match pat with
  | [] => false
  | p :: _ =>
    preBoundary prev p && headMatch pat s &&
      (match pat.getLast? with
       | some l => postBoundary l (s.drop pat.length)
       | none => false)

/-- Helper scanning all positions of the string, tracking the previous
character. -/
def boundedOccurAux (prev : Option Char) (pat : List Char) : List Char → Bool
  | [] => boundedHere prev pat []
  | c :: cs => boundedHere prev pat (c :: cs) || boundedOccurAux (some c) pat cs

/-- Occurrence of `pat` somewhere in `s` with word boundaries on both sides:
one alternative of a JS regex of shape word-boundary, group, word-boundary. -/
def boundedOccur (pat s : List Char) : Bool := boundedOccurAux none pat s

/-! ### Task-type inference (`src/core/taskType.ts`) -/

/-- The keyword alternatives of the code-detection regex in `inferTaskType`. -/
def codeKeywords : List (List Char) :=
  ["stack trace".data, "error".data, "exception".data, "refactor".data,
   "implement".data, "bug".data, "typescript".data, "javascript".data, "bun".data]

/-- The keyword alternatives of the rewrite-detection regex. -/
def rewriteKeywords : List (List Char) :=
  ["summarize".data, "rewrite".data, "rephrase".data, "tone".data, "polish".data]

/-- The keyword alternatives of the research-detection regex; the regex makes
the trailing letter s of source optional, hence two entries. -/
def researchKeywords : List (List Char) :=
  ["latest".data, "source".data, "sources".data, "compare".data,
   "research".data, "cite".data]

/-- A triple-backtick code fence delimiter. -/
def fenceChars : List Char := "```".data

/-- Model of `inferTaskType` (`src/core/taskType.ts`): lowercase the text,
then test the code, rewrite and research regexes in that order. -/
def inferTaskType (text : String) : TaskType :=
  let normalized := lowerChars text.data
  if containsSeq fenceChars normalized
      || codeKeywords.any (fun k => boundedOccur k normalized) then
    TaskType.code
  else if rewriteKeywords.any (fun k => boundedOccur k normalized) then
    TaskType.rewrite
  else if researchKeywords.any (fun k => boundedOccur k normalized) then
    TaskType.research
  else
    TaskType.reasoning

/-! ### Heuristic evaluator (`src/core/evaluator/heuristics.ts`) -/

/-- An ASCII apostrophe, built by code point to keep it out of the source
text of this file. -/
def apos : Char := Char.ofNat 39

/-- The eight refusal phrases of the heuristic evaluator. -/
def refusalPhrases : List (List Char) :=
  [ "i can".data ++ [apos] ++ "t".data,
    "i cannot".data,
    "i am not able".data,
    "i".data ++ [apos] ++ "m not able".data,
    "as an ai".data,
    "i do not have the ability".data,
    "i cannot comply".data,
    "unable to help".data ]

/-- The code-block regex of the evaluator: a fence, anything, another fence.
True exactly when a fence occurs and another fence occurs at least three
characters later. -/
def hasTwoFences : List Char → Bool
  | [] => false
  | c :: cs =>
    (headMatch fenceChars (c :: cs) && containsSeq fenceChars ((c :: cs).drop 3))
      || hasTwoFences cs

/-- Split on newline characters (for a multi-line anchored regex). -/
def splitLinesAux (cur : List Char) : List Char → List (List Char)
  | [] => [cur.reverse]
  | c :: cs =>
    if c = '\n' then cur.reverse :: splitLinesAux [] cs
    else splitLinesAux (c :: cur) cs

/-- All lines of the text. -/
def splitLines (s : List Char) : List (List Char) := splitLinesAux [] s

/-- The four line-start markers of the unified-diff regex. -/
def diffMarkers : List (List Char) :=
  ["diff --git".data, "+++".data, "---".data, "@@".data]

/-- The unified-diff regex of the evaluator: some line starts with one of the
diff markers. -/
def hasDiffMarker (s : List Char) : Bool :=
  (splitLines s).any (fun line => diffMarkers.any (fun p => headMatch p line))

/-- The alternatives of the file-path-hint regex; the regex makes the
trailing letter s of test optional, hence two entries. -/
def fileHintPatterns : List (List Char) :=
  ["src/".data, "lib/".data, "test/".data, "tests/".data,
   ".ts".data, ".js".data, ".py".data, ".go".data]

/-- The file-path-hint regex: a word-bounded occurrence of one of the
patterns, matched case-insensitively. -/
def hasFileHint (s : List Char) : Bool :=
  fileHintPatterns.any (fun p => boundedOccur p (lowerChars s))

/-- The URL regex of the evaluator. -/
def hasLink (s : List Char) : Bool :=
  containsSeq ("http://".data) s || containsSeq ("https://".data) s
    || containsSeq ("www.".data) s

/-- Clamping to the unit interval, as the two trailing if statements do. -/
def clamp01 (q : ℚ) : ℚ := if q < 0 then 0 else if q > 1 then 1 else q

/-- Model of `heuristicScore` (`src/core/evaluator/heuristics.ts`); the
sequential score mutations of the source become nested lets. -/
def heuristicScore (text : String) (taskType : TaskType) (hasToolCalls : Bool) : ℚ :=
  let normalized := lowerChars (trimChars text.data)
  if normalized.isEmpty && !hasToolCalls then 0 else
  let score0 : ℚ := if hasToolCalls then 0.45 else 0.35
  let score1 := if normalized.length ≥ 120 then score0 + 0.15 else score0
  let score2 := if normalized.length ≥ 400 then score1 + 0.2 else score1
  let score3 := if normalized.length < 40 then score2 - 0.2 else score2
  let score4 :=
    if refusalPhrases.any (fun p => containsSeq p normalized) then score3 - 0.7
    else score3
  let score5 :=
    if taskType = TaskType.code then
      let base :=
        if hasTwoFences text.data || hasDiffMarker text.data then score4 + 0.25
        else if !hasToolCalls then score4 - 0.3
        else score4
      if hasFileHint text.data then base + 0.05 else base
    else score4
  let score6 :=
    if taskType = TaskType.research then
      (if hasLink text.data then score5 + 0.1 else score5)
    else score5
  clamp01 score6

/-! ### Full evaluator (`src/core/evaluator/index.ts`) -/

/-- Configuration of the optional executable code evaluation. -/
structure CodeEvalCfg where
  enabled : Bool
  command : String
  timeoutMs : ℚ
  weight : ℚ
  failurePenalty : ℚ
deriving DecidableEq

/-- Model of `evaluate` (`src/core/evaluator/index.ts`).  The exit status of
the external code-evaluation subprocess is the oracle input
`codeEvalPassed`; it is consulted only when the task is code and the config
enables the subprocess. -/
def evaluateScore (text : String) (taskType : TaskType) (cfg : Option CodeEvalCfg)
    (codeEvalPassed : Bool) (hasToolCalls : Bool) : ℚ :=
  let heuristic := heuristicScore text taskType hasToolCalls
  let score :=
    match cfg with
    | some c =>
      if taskType = TaskType.code && c.enabled then
        (if codeEvalPassed then heuristic + c.weight else heuristic - c.failurePenalty)
      else heuristic
    | none => heuristic
  clamp01 score

/-! ### Threshold parsing (`src/server/handler.ts`) -/

/-- The `x-router-quality-threshold` header as the JS code observes it:
absent or empty string (falsy), a value JS `Number` turns into NaN, or a
numeric value. -/
inductive HeaderVal
  | absent
  | nonNumeric
  | numeric (q : ℚ)
deriving DecidableEq

/-- Model of `parseThreshold` (`src/server/handler.ts`). -/
def parseThreshold : HeaderVal → Option ℚ
  | HeaderVal.absent => none
  | HeaderVal.nonNumeric => none
  | HeaderVal.numeric q => if q > 1 then some (min (q / 5) 1) else some (max q 0)

/-- The quality threshold the handler puts in the router request:
the parsed header value, with nullish fallback to zero. -/
def handlerQualityThreshold (h : HeaderVal) : ℚ := (parseThreshold h).getD 0

/-! ### JS falsy/nullish fallback, and effective route parameters
(`src/core/router.ts`, top of `route`) -/

/-- JS or-fallback on a number that may be undefined: `none` is undefined and
zero is falsy, both fall back (ℚ has no NaN). -/
def jsOrNum (v : Option ℚ) (d : ℚ) : ℚ :=
  match v with
  | none => d
  | some x => if x = 0 then d else x

/-- JS nullish-fallback on a number that may be undefined: only `none` falls
back; zero is kept. -/
def jsNullishNum (v : Option ℚ) (d : ℚ) : ℚ := v.getD d

/-! ### Context fitting (`src/core/router.ts`, `fitMessagesToContext`) -/

/-- Remove the first message whose role is not system (JS `findIndex` +
`splice`), returning it together with the remaining list. -/
def removeFirstNonSystem : List Msg → Option (Msg × List Msg)
  | [] => none
  | m :: rest =>
    if m.role = Role.system then
      match removeFirstNonSystem rest with
      | none => none
      | some (r, l) => some (r, m :: l)
    else some (m, rest)

/-- Does the token estimate fit the context window?  The estimate is the
ceiling of a quarter of the character total, plus the requested output
tokens. -/
def estFit (totalLength : ℕ) (maxContext maxTokens : ℚ) : Bool :=
  decide ((((totalLength + 3) / 4 : ℕ) : ℚ) + maxTokens ≤ maxContext)

/-- The trimming loop of `fitMessagesToContext`: the running character total
is updated incrementally exactly as in the source.  The loop terminates
because every iteration removes one message, so it is given the structural
bound `fuelN`; the caller passes one more than the message count, which the
lemmas below show is never exhausted. -/
def fitLoop (fuelN : ℕ) (msgs : List Msg) (totalLength : ℕ)
    (maxContext maxTokens : ℚ) (trimmedCount : ℕ) : Option (List Msg × ℕ) :=
  match fuelN with
  | 0 => none
  | Nat.succ f =>
    if estFit totalLength maxContext maxTokens then some (msgs, trimmedCount)
    else
      match removeFirstNonSystem msgs with
      | none => none
      | some (removed, rest) =>
        fitLoop f rest
          (totalLength - removed.content.length - (if 1 ≤ rest.length then 1 else 0))
          maxContext maxTokens (trimmedCount + 1)

/-- The initial character total: all content lengths plus one separator per
adjacent pair. -/
def initialTotalLength (msgs : List Msg) : ℕ :=
  (msgs.foldl (fun acc m => acc + m.content.length) 0)
    + (if msgs.length > 1 then msgs.length - 1 else 0)

/-- Model of `fitMessagesToContext` (`src/core/router.ts`). -/
def fitMessagesToContext (msgs : List Msg) (maxContext maxTokens : ℚ) :
    Option (List Msg × ℕ) :=
  fitLoop (msgs.length + 1) msgs (initialTotalLength msgs) maxContext maxTokens 0

/-! ### Router data model (`src/core/types.ts`) -/

/-- A typed router request, as built by the HTTP handler.  The numeric fields
are optional here because the router code guards every one of them with a
falsy or nullish fallback, so the embedding must distinguish undefined from
zero.  Sampling parameters and tool schemas are pass-through payload and are
omitted. -/
structure RouterRequest where
  messages : List Msg
  taskType : TaskType
  qualityThreshold : Option ℚ
  maxWaitMs : Option ℚ
  attemptBudget : Option ℚ
  requestId : String
  maxTokens : Option ℚ
  stream : Bool
  allowDegrade : Bool
  resume : Bool

/-- A model registry entry.  Capabilities are a partial map from task type to
a number, looked up with a nullish fallback to zero. -/
structure CandidateModel where
  id : String
  provider : String
  context : ℚ
  capabilities : TaskType → Option ℚ
  costWeight : ℚ
  enabled : Bool

/-- Per-model health state (`src/core/types.ts`, `ModelHealth`). -/
structure ModelHealth where
  cooldownUntil : ℚ
  degradedUntil : ℚ
  rateLimitStrikes : ℕ
  lastRateLimitAt : ℚ
  rollingLatencyMs : ℚ
  rollingSuccessRate : ℚ
deriving DecidableEq

/-- The default-initialized health entry of the health stores. -/
def defaultHealth : ModelHealth :=
  { cooldownUntil := 0, degradedUntil := 0, rateLimitStrikes := 0,
    lastRateLimitAt := 0, rollingLatencyMs := 0, rollingSuccessRate := 1 }

/-- Per-provider budget state. -/
structure ProviderBudget where
  usedTokens : ℚ
  softLimitTokens : Option ℚ
  hardLimitTokens : Option ℚ
deriving DecidableEq

/-- Attempt outcomes (`src/core/types.ts`, `RoutingAttempt`). -/
inductive Outcome
  | success
  | evalFail
  | rateLimit
  | transient
  | quota
  | permanent
deriving DecidableEq

/-- One attempt-log record. -/
structure RoutingAttempt where
  modelId : String
  outcome : Outcome
  score : Option ℚ
deriving DecidableEq

/-- Session lifecycle status (`src/core/sessionStore.ts`). -/
inductive SessionStatus
  | pending
  | complete
deriving DecidableEq

/-- A persisted request session; creation and update timestamps are not
relevant to any claim and are omitted. -/
structure SessionRecord where
  status : SessionStatus
  responseText : Option String
  selectedModelId : Option String
  attempts : List RoutingAttempt
deriving DecidableEq

/-- Usage accounting attached to a provider response. -/
structure UsageInfo where
  totalTokens : Option ℚ
deriving DecidableEq

/-- A normalized provider response; tool calls are opaque payload, modelled
as strings. -/
structure NormalizedResponse where
  text : String
  toolCalls : Option (List String)
  usage : Option UsageInfo
deriving DecidableEq

/-- The normalized adapter error taxonomy (`src/adapters/errors.ts`); only
the permanent kind carries a message the router inspects. -/
inductive AdapterErrKind
  | rateLimited (retryAfterMs : Option ℚ)
  | quotaExceeded
  | transientErr
  | permanentErr (message : String)
deriving DecidableEq

/-- One scripted reply of the provider adapter: a normal return, a thrown
`AdapterError`, or a thrown non-adapter exception. -/
inductive AdapterReply
  | ok (resp : NormalizedResponse)
  | thrown (e : AdapterErrKind)
  | thrownOther
deriving DecidableEq

/-- Judge-model configuration (`policies.evaluationJudge`). -/
structure JudgeCfg where
  enabled : Bool
  modelId : String
  minScore : Option ℚ
deriving DecidableEq

/-- Optional per-policy scorer weight overrides. -/
structure Weights where
  capability : Option ℚ
  reliability : Option ℚ
  cost : Option ℚ
  latency : Option ℚ
  degradePenalty : Option ℚ
  budgetPenalty : Option ℚ
deriving DecidableEq

/-- One routing policy (`src/core/types.ts`, `RoutingPolicy`). -/
structure RoutingPolicy where
  preferred : List String
  minCapability : ℚ
  qualityThreshold : ℚ
  maxAttemptsPerCycle : ℚ
  pollIntervalMs : ℚ
  maxWaitMs : ℚ
  weights : Option Weights

/-- The policies configuration; the required default entry of the routing
record is kept as a separate field, the remaining per-task entries as a
partial map.  Streaming chunk parameters only shape the chunking of an
already-accepted text and are omitted. -/
structure PoliciesConfig where
  routing : TaskType → Option RoutingPolicy
  routingDefault : RoutingPolicy
  codeEvaluation : Option CodeEvalCfg
  evaluationJudge : Option JudgeCfg

/-- `policies.routing` lookup with nullish fallback to the default entry. -/
def policyForTask (p : PoliciesConfig) (t : TaskType) : RoutingPolicy :=
  (p.routing t).getD p.routingDefault

/-- The dependency bundle handed to `route`; stores live in the `World`
below, so only the presence flag of the optional session store remains
here.  Metrics counters have no effect on any claim and are omitted. -/
structure RouterDeps where
  models : List CandidateModel
  policies : PoliciesConfig
  hasSessionStore : Bool

/-! ### The effectful world

All effects of a `route` run: the wall clock, the scripted adapter, the
scripted code-evaluation subprocess, and the three stores.  The counters
`adapterCalls`, `judgeCalls`, `unfitSkips` and `codeEvalRuns` index into the
oracle streams and double as instrumentation for the claims about provider
invocations. -/
structure World where
  clock : ℕ → ℚ
  ticks : ℕ
  lastTime : ℚ
  adapterReplies : ℕ → AdapterReply
  adapterCalls : ℕ
  judgeCalls : ℕ
  unfitSkips : ℕ
  codeEvalExits : ℕ → Bool
  codeEvalRuns : ℕ
  health : String → ModelHealth
  budgets : String → ProviderBudget
  sessions : String → Option SessionRecord
  attemptsLog : List RoutingAttempt

/-- One `Date.now()` reading. -/
def tick (w : World) : ℚ × World :=
  let t := w.clock w.ticks
  (t, { w with ticks := w.ticks + 1, lastTime := t })

/-- One provider-adapter invocation, for either generate or stream. -/
def adapterCall (w : World) : AdapterReply × World :=
  (w.adapterReplies w.adapterCalls, { w with adapterCalls := w.adapterCalls + 1 })

/-- Append one record to the in-memory attempt log. -/
def pushAttempt (w : World) (a : RoutingAttempt) : World :=
  { w with attemptsLog := w.attemptsLog ++ [a] }

/-- Point update of the health map. -/
def setHealth (w : World) (id : String) (h : ModelHealth) : World :=
  { w with health := fun k => if k = id then h else w.health k }

/-! ### Functional store models (`src/core/healthStore.ts`,
`HealthStoreMemory`; `src/core/budgetStore.ts`; `src/core/sessionStore.ts`) -/

/-- `markRateLimited`: overwrite the cooldown deadline and the strike
bookkeeping, preserve the rest; `now` is the store's own clock reading. -/
def markRateLimitedF (h : ModelHealth) (now cooldownMs : ℚ) (strikes : ℕ)
    (lastAt : ℚ) : ModelHealth :=
  { h with
    cooldownUntil := now + cooldownMs
    rateLimitStrikes := strikes
    lastRateLimitAt := lastAt }

/-- `markDegraded`: overwrite the degradation deadline, preserve the rest. -/
def markDegradedF (h : ModelHealth) (now degradeMs : ℚ) : ModelHealth :=
  { h with degradedUntil := now + degradeMs }

/-- `recordResult`: update both exponential moving averages with weight one
fifth; an absent latency observation repeats the current latency average. -/
def recordResultF (h : ModelHealth) (success : Bool) (latencyMs : Option ℚ) :
    ModelHealth :=
  let nextRate := h.rollingSuccessRate * (8 / 10) + (if success then 1 else 0) * (2 / 10)
  let lat := latencyMs.getD h.rollingLatencyMs
  let nextLat := h.rollingLatencyMs * (8 / 10) + lat * (2 / 10)
  { h with rollingLatencyMs := nextLat, rollingSuccessRate := nextRate }

/-- World-level `markRateLimited`; the memory store reads the clock once for
the cooldown deadline. -/
def wMarkRateLimited (w : World) (id : String) (cooldownMs : ℚ) (strikes : ℕ)
    (lastAt : ℚ) : World :=
  let tw := tick w
  setHealth tw.2 id (markRateLimitedF (tw.2.health id) tw.1 cooldownMs strikes lastAt)

/-- World-level `markDegraded`; the memory store reads the clock once. -/
def wMarkDegraded (w : World) (id : String) (degradeMs : ℚ) : World :=
  let tw := tick w
  setHealth tw.2 id (markDegradedF (tw.2.health id) tw.1 degradeMs)

/-- World-level `recordResult` (no clock reading in the memory store). -/
def wRecordResult (w : World) (id : String) (success : Bool) (latencyMs : Option ℚ) :
    World :=
  setHealth w id (recordResultF (w.health id) success latencyMs)

/-- World-level `budgetStore.record`: additive usage accounting. -/
def wRecordBudget (w : World) (provider : String) (tokens : ℚ) : World :=
  { w with budgets := fun k =>
      if k = provider then
        { w.budgets k with usedTokens := (w.budgets k).usedTokens + tokens }
      else w.budgets k }

/-- A fresh pending session, created when an attempt is recorded against an
unknown request id. -/
def emptySession : SessionRecord :=
  { status := SessionStatus.pending, responseText := none,
    selectedModelId := none, attempts := [] }

/-- World-level `sessionStore.recordAttempt`, guarded by the presence of the
optional session store. -/
def wRecordAttempt (w : World) (hasStore : Bool) (requestId : String)
    (a : RoutingAttempt) : World :=
  if hasStore then
    let s := (w.sessions requestId).getD emptySession
    { w with sessions := fun k =>
        if k = requestId then some { s with attempts := s.attempts ++ [a] }
        else w.sessions k }
  else w

/-- World-level `sessionStore.recordResult`: transition to complete and store
the final text, guarded by store presence. -/
def wRecordSessionResult (w : World) (hasStore : Bool) (requestId modelId : String)
    (text : String) : World :=
  if hasStore then
    let s := (w.sessions requestId).getD emptySession
    { w with sessions := fun k =>
        if k = requestId then
          some { s with
                 status := SessionStatus.complete
                 responseText := some text
                 selectedModelId := some modelId }
        else w.sessions k }
  else w

/-! ### Candidate scoring (`src/core/scoring.ts`) -/

/-- Capability lookup with nullish fallback to zero. -/
def capabilityOf (m : CandidateModel) (t : TaskType) : ℚ := (m.capabilities t).getD 0

/-- Model of `scoreModel`; `now` is the clock reading its degradation check
makes. -/
def scoreModel (m : CandidateModel) (t : TaskType) (h : ModelHealth)
    (b : ProviderBudget) (policy : RoutingPolicy) (now : ℚ) : ℚ :=
  let wCap := (policy.weights.bind (fun x => x.capability)).getD 1
  let wRel := (policy.weights.bind (fun x => x.reliability)).getD (5 / 10)
  let wCost := (policy.weights.bind (fun x => x.cost)).getD (5 / 10)
  let wLat := (policy.weights.bind (fun x => x.latency)).getD (2 / 10)
  let wDeg := (policy.weights.bind (fun x => x.degradePenalty)).getD (15 / 10)
  let wBud := (policy.weights.bind (fun x => x.budgetPenalty)).getD 1
  let s0 := wCap * capabilityOf m t
  let s1 := s0 - wCost * m.costWeight
  let s2 := if h.degradedUntil > now then s1 - wDeg else s1
  let s3 :=
    match b.softLimitTokens with
    | some soft => if soft ≠ 0 ∧ soft * (9 / 10) ≤ b.usedTokens then s2 - wBud else s2
    | none => s2
  let s4 := s3 + wRel * h.rollingSuccessRate
  let s5 :=
    if h.rollingLatencyMs > 0 then s4 - wLat * (min (h.rollingLatencyMs / 1000) 5)
    else s4
  s5

/-! ### Candidate ordering (`src/core/router.ts`, sort comparator) -/

/-- `Number.MAX_SAFE_INTEGER`, the sort key of models absent from the
preferred list. -/
def maxSafeInteger : ℚ := 9007199254740991

/-- Position of a model id in the preferred list (JS `indexOf`). -/
def prefIndex (x : String) : List String → Option ℕ
  | [] => none
  | y :: ys => if y = x then some 0 else (prefIndex x ys).map (fun i => i + 1)

/-- The tiebreak key: preferred-list position, or the maximal safe integer
when absent. -/
def safeIndex (preferred : List String) (x : String) : ℚ :=
  match prefIndex x preferred with
  | none => maxSafeInteger
  | some i => i

/-- The sort comparator of the candidate ordering, as a boolean
less-or-equal: score descending, ties broken by preferred-list position. -/
def candLE (preferred : List String) (a b : CandidateModel × ℚ) : Bool :=
  if b.2 ≠ a.2 then decide (b.2 - a.2 ≤ 0)
  else decide (safeIndex preferred a.1.id - safeIndex preferred b.1.id ≤ 0)

/-- Stable insertion into a sorted list: the new element goes after every
element it compares less-or-equal against. -/
def insertSorted (le : α → α → Bool) (x : α) : List α → List α
  | [] => [x]
  | y :: ys => if le y x then y :: insertSorted le x ys else x :: y :: ys

/-- Stable sort by a boolean comparator, modelling the ES stable
`Array.prototype.sort`. -/
def sortByComparator (le : α → α → Bool) (l : List α) : List α :=
  l.foldl (fun acc x => insertSorted le x acc) []

/-! ### The router engine (`src/core/router.ts`, `route`) -/

/-- The per-request context resolved at the top of `route`. -/
structure RouteCtx where
  request : RouterRequest
  deps : RouterDeps
  policy : RoutingPolicy
  maxWaitMs : ℚ
  attemptBudget : ℚ
  threshold : ℚ
  preferred : List String
  start : ℚ

/-- Routing metadata attached to a result. -/
structure RoutingMetadata where
  attempts : List RoutingAttempt
  selectedModelId : String
  taskType : TaskType
deriving DecidableEq

/-- `buildMetadata`. -/
def buildMetadata (attempts : List RoutingAttempt) (selected : String)
    (t : TaskType) : RoutingMetadata :=
  { attempts := attempts, selectedModelId := selected, taskType := t }

/-- The outcome of a `route` run: a text result, a streaming result (carrying
the full text the stream will deliver), the thrown no-suitable-model error,
or exhaustion of the step fuel of the embedding. -/
inductive RouteOutcome
  | textOut (resp : NormalizedResponse) (modelId : String) (meta : RoutingMetadata)
  | streamOut (fullText : String) (modelId : String) (meta : RoutingMetadata)
  | noSuitable (retryAfterMs : ℚ)
  | fuelExhausted
deriving DecidableEq

/-- The effective wait budget: falsy-or fallback to the policy. -/
def routeEffMaxWait (v : Option ℚ) (policy : RoutingPolicy) : ℚ :=
  jsOrNum v policy.maxWaitMs

/-- The effective per-cycle attempt budget: falsy-or fallback to the policy. -/
def routeEffAttemptBudget (v : Option ℚ) (policy : RoutingPolicy) : ℚ :=
  jsOrNum v policy.maxAttemptsPerCycle

/-- The effective quality threshold: nullish fallback to the policy. -/
def routeEffThreshold (v : Option ℚ) (policy : RoutingPolicy) : ℚ :=
  jsNullishNum v policy.qualityThreshold

/-- The candidate filter: enabled, on the preferred list when that list is
non-empty, and capable enough for the task. -/
def eligibleModels (ctx : RouteCtx) : List CandidateModel :=
  ctx.deps.models.filter (fun m =>
    m.enabled &&
    (ctx.preferred.isEmpty || ctx.preferred.contains m.id) &&
    decide (ctx.policy.minCapability ≤ capabilityOf m ctx.request.taskType))

/-- First phase of candidate assembly: drop models in cooldown.  Each model
costs one clock reading; the readings happen in list order, matching the
microtask order of the source's fan-out. -/
def cooldownPhase (models : List CandidateModel) (w : World) :
    List CandidateModel × World :=
  match models with
  | [] => ([], w)
  | m :: rest =>
    let h := w.health m.id
    let tw := tick w
    let rest' := cooldownPhase rest tw.2
    if h.cooldownUntil > tw.1 then (rest'.1, rest'.2) else (m :: rest'.1, rest'.2)

/-- Second phase: drop providers at their hard budget limit (a zero limit is
falsy and disables the check) and score the survivors; each scored model
costs one clock reading inside `scoreModel`. -/
def scorePhase (ctx : RouteCtx) (models : List CandidateModel) (w : World) :
    List (CandidateModel × ℚ) × World :=
  match models with
  | [] => ([], w)
  | m :: rest =>
    let b := w.budgets m.provider
    let atHardLimit :=
      match b.hardLimitTokens with
      | some hcap => decide (hcap ≠ 0) && decide (hcap ≤ b.usedTokens)
      | none => false
    if atHardLimit then scorePhase ctx rest w
    else
      let tw := tick w
      let s := scoreModel m ctx.request.taskType (tw.2.health m.id) b ctx.policy tw.1
      let rest' := scorePhase ctx rest tw.2
      ((m, s) :: rest'.1, rest'.2)

/-- How many candidates the attempt counter lets through: the JS loop breaks
once the running count reaches the (possibly fractional) budget. -/
def natBudget (q : ℚ) : ℕ := if q ≤ 0 then 0 else ⌈q⌉.toNat

/-- One code-evaluation subprocess run (`src/core/evaluator/codeEval.ts`):
an empty command short-circuits; otherwise the start and duration
measurements each read the clock, and the exit status comes from the
oracle. -/
def runCodeEvalF (w : World) (cfg : CodeEvalCfg) : Bool × World :=
  if (trimChars cfg.command.data).isEmpty then (false, w)
  else
    let w1 := (tick w).2
    let passed := w1.codeEvalExits w1.codeEvalRuns
    let w2 := { w1 with codeEvalRuns := w1.codeEvalRuns + 1 }
    (passed, (tick w2).2)

/-- `evaluate` with its effects: the subprocess runs only for code tasks with
the evaluation enabled. -/
def evalWithWorld (w : World) (text : String) (taskType : TaskType)
    (cfg : Option CodeEvalCfg) (hasToolCalls : Bool) : ℚ × World :=
  match cfg with
  | some c =>
    if taskType = TaskType.code && c.enabled then
      let pw := runCodeEvalF w c
      (evaluateScore text taskType (some c) pw.1 hasToolCalls, pw.2)
    else (evaluateScore text taskType (some c) false hasToolCalls, w)
  | none => (evaluateScore text taskType none false hasToolCalls, w)

/-- Value of digit characters read left to right. -/
def natOfDigits (l : List Char) : ℕ :=
  l.foldl (fun acc c => acc * 10 + (c.toNat - 48)) 0

/-- The fractional part accepted after a leading zero by the judge's score
regex: a dot followed by one or more digits, taken greedily. -/
def zeroFrac (rest : List Char) : ℚ :=
  match rest with
  | '.' :: ds =>
    let digs := ds.takeWhile Char.isDigit
    if digs.isEmpty then 0 else (natOfDigits digs : ℚ) / ((10 : ℚ) ^ digs.length)
  | _ => 0

/-- First match of the judge's score regex in the response text, converted to
a number: a zero with an optional fraction, or a one (an all-zero fraction
adds nothing). -/
def parseJudgeScore : List Char → Option ℚ
  | [] => none
  | c :: cs =>
    if c = '0' then some (zeroFrac cs)
    else if c = '1' then some 1
    else parseJudgeScore cs

/-- Model of `maybeJudgeScore`: consult the judge model only when enabled,
the candidate is not the judge itself, the heuristic score reaches the
consultation floor, and the judge model exists; adapter errors are
swallowed.  The judge's adapter invocation bumps `judgeCalls`. -/
def maybeJudgeScoreF (w : World) (deps : RouterDeps) (candidate : CandidateModel)
    (score threshold : ℚ) : Option ℚ × World :=
  match deps.policies.evaluationJudge with
  | none => (none, w)
  | some cfg =>
    if !cfg.enabled then (none, w)
    else if candidate.id = cfg.modelId then (none, w)
    else
      let minScore := cfg.minScore.getD (max 0 (threshold - (2 / 10)))
      if score < minScore then (none, w)
      else
        match deps.models.find? (fun m => m.id = cfg.modelId) with
        | none => (none, w)
        | some _ =>
          let rw := adapterCall w
          let w2 := { rw.2 with judgeCalls := rw.2.judgeCalls + 1 }
          match rw.1 with
          | AdapterReply.ok resp => (parseJudgeScore resp.text.data, w2)
          | _ => (none, w2)

/-- The catch block of the attempt loop: first the latency measurement reads
the clock, then the error is dispatched by kind.  `err` is `none` for a
thrown non-adapter exception. -/
def handleAdapterThrow (ctx : RouteCtx) (model : CandidateModel)
    (attemptStart : ℚ) (err : Option AdapterErrKind) (w : World) : World :=
  let tw := tick w
  let latencyMs := tw.1 - attemptStart
  let w := tw.2
  match err with
  | some (AdapterErrKind.rateLimited retryAfterMs) =>
    let nw := tick w
    let now := nw.1
    let w := nw.2
    let h := w.health model.id
    let withinWindow := decide (now - h.lastRateLimitAt ≤ 60000)
    let strikes := if withinWindow then h.rateLimitStrikes + 1 else 1
    let cooldownMs :=
      retryAfterMs.getD (min ((2000 * 2 ^ (strikes - 1) : ℕ) : ℚ) 60000)
    let w := wMarkRateLimited w model.id cooldownMs strikes now
    let w := pushAttempt w { modelId := model.id, outcome := Outcome.rateLimit, score := none }
    let w := wRecordResult w model.id false (some latencyMs)
    wRecordAttempt w ctx.deps.hasSessionStore ctx.request.requestId
      { modelId := model.id, outcome := Outcome.rateLimit, score := none }
  | some AdapterErrKind.transientErr =>
    let w := pushAttempt w { modelId := model.id, outcome := Outcome.transient, score := none }
    let w := wRecordResult w model.id false (some latencyMs)
    wRecordAttempt w ctx.deps.hasSessionStore ctx.request.requestId
      { modelId := model.id, outcome := Outcome.transient, score := none }
  | some AdapterErrKind.quotaExceeded =>
    let w := pushAttempt w { modelId := model.id, outcome := Outcome.quota, score := none }
    let w := wRecordResult w model.id false (some latencyMs)
    wRecordAttempt w ctx.deps.hasSessionStore ctx.request.requestId
      { modelId := model.id, outcome := Outcome.quota, score := none }
  | some (AdapterErrKind.permanentErr msg) =>
    let w := pushAttempt w { modelId := model.id, outcome := Outcome.permanent, score := none }
    let w := if msg = "context_length_exceeded" then wMarkDegraded w model.id 60000 else w
    let w := wRecordResult w model.id false (some latencyMs)
    wRecordAttempt w ctx.deps.hasSessionStore ctx.request.requestId
      { modelId := model.id, outcome := Outcome.permanent, score := none }
  | none =>
    let w := pushAttempt w { modelId := model.id, outcome := Outcome.permanent, score := none }
    let w := wRecordResult w model.id false (some latencyMs)
    wRecordAttempt w ctx.deps.hasSessionStore ctx.request.requestId
      { modelId := model.id, outcome := Outcome.permanent, score := none }

/-- `finalizeResult`: record token usage, persist the session result, log the
completion (one clock reading for the elapsed-time field) and shape the
result; a tool-calling response suppresses streaming. -/
def finalizeResultF (ctx : RouteCtx) (model : CandidateModel)
    (resp : NormalizedResponse) (w : World) : RouteOutcome × World :=
  let totalTokens := (resp.usage.bind (fun u => u.totalTokens)).getD 0
  let w := if totalTokens > 0 then wRecordBudget w model.provider totalTokens else w
  let noToolCalls :=
    match resp.toolCalls with
    | none => true
    | some l => l.isEmpty
  if ctx.request.stream && noToolCalls then
    let w := (tick (wRecordSessionResult w ctx.deps.hasSessionStore ctx.request.requestId
      model.id resp.text)).2
    (RouteOutcome.streamOut resp.text model.id
      (buildMetadata w.attemptsLog model.id ctx.request.taskType), w)
  else
    let w := (tick (wRecordSessionResult w ctx.deps.hasSessionStore ctx.request.requestId
      model.id resp.text)).2
    (RouteOutcome.textOut resp model.id
      (buildMetadata w.attemptsLog model.id ctx.request.taskType), w)

/-- The quality-gate failure path of a generated attempt: record the EMA
failure, log the attempt, quarantine the model for thirty seconds. -/
def evalFailPath (ctx : RouteCtx) (model : CandidateModel) (score latencyMs : ℚ)
    (w : World) : World :=
  let w := wRecordResult w model.id false (some latencyMs)
  let w := pushAttempt w { modelId := model.id, outcome := Outcome.evalFail, score := some score }
  let w := wRecordAttempt w ctx.deps.hasSessionStore ctx.request.requestId
    { modelId := model.id, outcome := Outcome.evalFail, score := some score }
  wMarkDegraded w model.id 30000

/-- Does a response carry a non-empty tool-call array? -/
def respHasToolCalls (resp : NormalizedResponse) : Bool :=
  match resp.toolCalls with
  | some l => !l.isEmpty
  | none => false

/-- The successful-attempt bookkeeping shared by the three acceptance sites:
record the EMA observation, log a success attempt with the given score, and
finalize. -/
def acceptPath (ctx : RouteCtx) (model : CandidateModel) (resp : NormalizedResponse)
    (emaSuccess : Bool) (latencyMs : ℚ) (loggedScore : ℚ) (w : World) :
    Option RouteOutcome × World :=
  let w := wRecordResult w model.id emaSuccess (some latencyMs)
  let w := pushAttempt w { modelId := model.id, outcome := Outcome.success, score := some loggedScore }
  let w := wRecordAttempt w ctx.deps.hasSessionStore ctx.request.requestId
    { modelId := model.id, outcome := Outcome.success, score := some loggedScore }
  let ow := finalizeResultF ctx model resp w
  (some ow.1, ow.2)

/-- One candidate attempt of the inner loop: context fitting, dispatch to the
streaming or generate path, evaluation, gating, judge consultation, and
error handling.  Returns `some` outcome to return from `route`, `none` to
continue with the next candidate. -/
def attemptModel (ctx : RouteCtx) (model : CandidateModel) (w : World) :
    Option RouteOutcome × World :=
  let tw := tick w
  let attemptStart := tw.1
  let w := tw.2
  match fitMessagesToContext ctx.request.messages model.context
      ((ctx.request.maxTokens).getD 0) with
  | none =>
    let w := pushAttempt w { modelId := model.id, outcome := Outcome.permanent, score := none }
    let w := wRecordAttempt w ctx.deps.hasSessionStore ctx.request.requestId
      { modelId := model.id, outcome := Outcome.permanent, score := none }
    let w := { w with unfitSkips := w.unfitSkips + 1 }
    (none, w)
  | some _fitted =>
    if ctx.request.stream && ctx.request.allowDegrade then
      let rw := adapterCall w
      match rw.1 with
      | AdapterReply.ok resp =>
        let w := pushAttempt rw.2 { modelId := model.id, outcome := Outcome.success, score := none }
        let w := wRecordAttempt w ctx.deps.hasSessionStore ctx.request.requestId
          { modelId := model.id, outcome := Outcome.success, score := none }
        (some (RouteOutcome.streamOut resp.text model.id
          (buildMetadata w.attemptsLog model.id ctx.request.taskType)), w)
      | AdapterReply.thrown e =>
        (none, handleAdapterThrow ctx model attemptStart (some e) rw.2)
      | AdapterReply.thrownOther =>
        (none, handleAdapterThrow ctx model attemptStart none rw.2)
    else
      let rw := adapterCall w
      match rw.1 with
      | AdapterReply.thrown e =>
        (none, handleAdapterThrow ctx model attemptStart (some e) rw.2)
      | AdapterReply.thrownOther =>
        (none, handleAdapterThrow ctx model attemptStart none rw.2)
      | AdapterReply.ok resp =>
        let ew := tick rw.2
        let latencyMs := ew.1 - attemptStart
        let sw := evalWithWorld ew.2 resp.text ctx.request.taskType
          ctx.deps.policies.codeEvaluation (respHasToolCalls resp)
        let score := sw.1
        let w := sw.2
        if ctx.request.allowDegrade then
          acceptPath ctx model resp (decide (ctx.threshold ≤ score)) latencyMs score w
        else if ctx.threshold ≤ score then
          acceptPath ctx model resp true latencyMs score w
        else
          let jw := maybeJudgeScoreF w ctx.deps model score ctx.threshold
          match jw.1 with
          | some judgedScore =>
            if ctx.threshold ≤ judgedScore then
              acceptPath ctx model resp true latencyMs judgedScore jw.2
            else (none, evalFailPath ctx model score latencyMs jw.2)
          | none => (none, evalFailPath ctx model score latencyMs jw.2)

/-- The inner attempt loop over the ordered, budget-limited candidate list. -/
def runAttempts (ctx : RouteCtx) : List CandidateModel → World →
    Option RouteOutcome × World
  | [], w => (none, w)
  | m :: rest, w =>
    let aw := attemptModel ctx m w
    match aw.1 with
    | some out => (some out, aw.2)
    | none => runAttempts ctx rest aw.2

/-- The outer wait loop of `route`, bounded by the wall-clock deadline; the
fuel bounds the number of cycles of the embedding only. -/
def routeLoop (ctx : RouteCtx) : ℕ → World → RouteOutcome × World
  | 0, w => (RouteOutcome.fuelExhausted, w)
  | Nat.succ fuel, w =>
    let tw := tick w
    if tw.1 - ctx.start < ctx.maxWaitMs then
      let cw := cooldownPhase (eligibleModels ctx) tw.2
      let sw := scorePhase ctx cw.1 cw.2
      let ordered := (sortByComparator (candLE ctx.preferred) sw.1).map (fun e => e.1)
      let rw := runAttempts ctx (ordered.take (natBudget ctx.attemptBudget)) sw.2
      match rw.1 with
      | some out => (out, rw.2)
      | none =>
        let nw := tick rw.2
        if ctx.maxWaitMs ≤ nw.1 - ctx.start then (RouteOutcome.noSuitable 10000, nw.2)
        else routeLoop ctx fuel nw.2
    else (RouteOutcome.noSuitable 10000, tw.2)

/-- Truthiness of the stored response text in the resume check. -/
def truthyText : Option String → Bool
  | none => false
  | some t => !t.isEmpty

/-- Model of `route`: resolve the policy and effective parameters, read the
start time, take the resume shortcut when it applies, otherwise run the wait
loop. -/
def route (fuel : ℕ) (request : RouterRequest) (deps : RouterDeps) (w : World) :
    RouteOutcome × World :=
  let policy := policyForTask deps.policies request.taskType
  let tw := tick w
  let w := tw.2
  let ctx : RouteCtx :=
    { request := request, deps := deps, policy := policy,
      maxWaitMs := routeEffMaxWait request.maxWaitMs policy,
      attemptBudget := routeEffAttemptBudget request.attemptBudget policy,
      threshold := routeEffThreshold request.qualityThreshold policy,
      preferred := policy.preferred, start := tw.1 }
  if request.resume && deps.hasSessionStore then
    match w.sessions request.requestId with
    | some s =>
      if s.status = SessionStatus.complete ∧ truthyText s.responseText then
        (RouteOutcome.textOut
          { text := s.responseText.getD "", toolCalls := none, usage := none }
          (s.selectedModelId.getD "unknown")
          (buildMetadata s.attempts (s.selectedModelId.getD "unknown") request.taskType), w)
      else routeLoop ctx fuel w
    | none => routeLoop ctx fuel w
  else routeLoop ctx fuel w

/-! ### HTTP error mapping (`src/server/handler.ts`, catch block) -/

/-- What the handler's catch block observes: the router's no-suitable-model
error, or any other failure. -/
inductive RouteFailure
  | noSuitableModel (retryAfterMs : ℚ)
  | otherFailure
deriving DecidableEq

/-- The error payload of the handler: HTTP status, the error code of the JSON
body, and its retry-after field when present. -/
structure HandlerErrorResponse where
  status : ℕ
  errorCode : String
  retryAfterMs : Option ℚ
deriving DecidableEq

/-- Model of the handler's catch block: the no-suitable-model error maps to a
503 carrying the error's retry-after value; everything else maps to a 500. -/
def handleRouteFailure : RouteFailure → HandlerErrorResponse
  | RouteFailure.noSuitableModel r =>
    { status := 503, errorCode := "no_suitable_model_available", retryAfterMs := some r }
  | RouteFailure.otherFailure =>
    { status := 500, errorCode := "router_error", retryAfterMs := none }

/-! ### Spec-side definitions for the claims -/

/-- The code keyword set exactly as claim C7 lists it: eight keywords,
without the extra keyword the source regex carries. -/
def claimCodeKeywords : List (List Char) :=
  ["stack trace".data, "error".data, "exception".data, "refactor".data,
   "implement".data, "bug".data, "typescript".data, "javascript".data]

/-- Task inference as claim C7 words it: same precedence and machinery, but
with the claim's eight-keyword code set. -/
def inferTaskTypeClaim (text : String) : TaskType :=
  let normalized := lowerChars text.data
  if containsSeq fenceChars normalized
      || claimCodeKeywords.any (fun k => boundedOccur k normalized) then
    TaskType.code
  else if rewriteKeywords.any (fun k => boundedOccur k normalized) then
    TaskType.rewrite
  else if researchKeywords.any (fun k => boundedOccur k normalized) then
    TaskType.research
  else
    TaskType.reasoning

/-- The amended code keyword set: the claim's eight keywords plus the extra
keyword present in the source regex. -/
def amendedCodeKeywords : List (List Char) :=
  ["stack trace".data, "error".data, "exception".data, "refactor".data,
   "implement".data, "bug".data, "typescript".data, "javascript".data, "bun".data]

/-- Task inference as amended claim C7 words it. -/
def inferTaskTypeAmended (text : String) : TaskType :=
  let normalized := lowerChars text.data
  if containsSeq fenceChars normalized
      || amendedCodeKeywords.any (fun k => boundedOccur k normalized) then
    TaskType.code
  else if rewriteKeywords.any (fun k => boundedOccur k normalized) then
    TaskType.rewrite
  else if researchKeywords.any (fun k => boundedOccur k normalized) then
    TaskType.research
  else
    TaskType.reasoning

/-- The heuristic score formula as claim C3 words it: a base depending on
tool calls, plus independent adjustments, clamped; zero for empty trimmed
text without tool calls. -/
def heuristicScoreClaim (text : String) (taskType : TaskType) (hasToolCalls : Bool) : ℚ :=
  let trimmed := trimChars text.data
  if trimmed.isEmpty && !hasToolCalls then 0 else
  clamp01 (
    (if hasToolCalls then (0.45 : ℚ) else 0.35)
    + (if trimmed.length ≥ 120 then (0.15 : ℚ) else 0)
    + (if trimmed.length ≥ 400 then (0.2 : ℚ) else 0)
    - (if trimmed.length < 40 then (0.2 : ℚ) else 0)
    - (if refusalPhrases.any (fun p => containsSeq p (lowerChars (trimChars text.data)))
       then (0.7 : ℚ) else 0)
    + (if taskType = TaskType.code then
         (if hasTwoFences text.data || hasDiffMarker text.data then (0.25 : ℚ)
          else if !hasToolCalls then (-0.3 : ℚ) else 0)
         + (if hasFileHint text.data then (0.05 : ℚ) else 0)
       else 0)
    + (if taskType = TaskType.research then
         (if hasLink text.data then (0.1 : ℚ) else 0)
       else 0))

/-- The character total of a message list as claim C5 counts it: content
lengths plus one separator per adjacent pair. -/
def totalLenOf (msgs : List Msg) : ℕ :=
  (msgs.map (fun m => m.content.length)).sum + (msgs.length - 1)

/-- The subsequence of system messages, i.e. what remains after dropping
every non-system message. -/
def systemOnly (msgs : List Msg) : List Msg :=
  msgs.filter (fun m => decide (m.role = Role.system))

/-- One trimming step: drop the first non-system message, or leave the list
unchanged when none remains. -/
def dropOne (msgs : List Msg) : List Msg :=
  match removeFirstNonSystem msgs with
  | none => msgs
  | some (_, rest) => rest

/-- The outcomes a successful candidate attempt can produce. -/
def isResultOutcome : RouteOutcome → Prop
  | RouteOutcome.textOut _ _ _ => True
  | RouteOutcome.streamOut _ _ _ => True
  | RouteOutcome.noSuitable _ => False
  | RouteOutcome.fuelExhausted => False

/-- A policy with arbitrary concrete values, used by witnesses. -/
def samplePolicy : RoutingPolicy :=
  { preferred := [], minCapability := 0, qualityThreshold := 7 / 10,
    maxAttemptsPerCycle := 3, pollIntervalMs := 250, maxWaitMs := 20000,
    weights := none }

/-- A policies configuration holding only the sample default entry. -/
def samplePolicies : PoliciesConfig :=
  { routing := fun _ => none, routingDefault := samplePolicy,
    codeEvaluation := none, evaluationJudge := none }

/-- A provider budget with no usage and no limits. -/
def emptyBudget : ProviderBudget :=
  { usedTokens := 0, softLimitTokens := none, hardLimitTokens := none }

/-- A base world for concrete scenarios: the clock advances one millisecond
per reading, the adapter always returns a plain greeting, the stores are
empty. -/
def baseWorld : World :=
  { clock := fun n => n, ticks := 0, lastTime := 0,
    adapterReplies := fun _ =>
      AdapterReply.ok { text := "hello", toolCalls := none, usage := none },
    adapterCalls := 0, judgeCalls := 0, unfitSkips := 0,
    codeEvalExits := fun _ => true, codeEvalRuns := 0,
    health := fun _ => defaultHealth, budgets := fun _ => emptyBudget,
    sessions := fun _ => none, attemptsLog := [] }

/-- Dependencies with no models at all (used for the timeout scenario). -/
def noModelDeps : RouterDeps :=
  { models := [], policies := samplePolicies, hasSessionStore := false }

/-- A request with a three-millisecond deadline (used for the timeout
scenario). -/
def timeoutReq : RouterRequest :=
  { messages := [{ role := Role.user, content := "hi" }],
    taskType := TaskType.reasoning, qualityThreshold := none,
    maxWaitMs := some 3, attemptBudget := none, requestId := "r1",
    maxTokens := none, stream := false, allowDegrade := false, resume := false }

/-- The instrumentation balance of a world: attempt-log length plus judge
invocations minus adapter invocations minus context-unfit skips.  The
router's bookkeeping keeps this quantity constant (claim C6). -/
def invCount (w : World) : ℤ :=
  (w.attemptsLog.length : ℤ) + w.judgeCalls - w.adapterCalls - w.unfitSkips

/-- Messages for the context-trim scenario: a system prompt and two user
messages of 24 and 2 characters. -/
def sampleMsgs : List Msg :=
  [{ role := Role.system, content := "sys" },
   { role := Role.user, content := "aaaaaaaaaaaaaaaaaaaaaaaa" },
   { role := Role.user, content := "bb" }]

/-- A capable enabled model. -/
def sampleModel : CandidateModel :=
  { id := "a", provider := "p", context := 1000,
    capabilities := fun _ => some 5, costWeight := 1, enabled := true }

/-- An undemanding policy: zero quality threshold, three attempts, one-second
deadline. -/
def lowBarPolicy : RoutingPolicy :=
  { preferred := [], minCapability := 0, qualityThreshold := 0,
    maxAttemptsPerCycle := 3, pollIntervalMs := 10, maxWaitMs := 1000,
    weights := none }

/-- A configuration with only the undemanding default policy. -/
def lowBarPolicies : PoliciesConfig :=
  { routing := fun _ => none, routingDefault := lowBarPolicy,
    codeEvaluation := none, evaluationJudge := none }

/-- One capable model with a session store. -/
def oneModelDeps : RouterDeps :=
  { models := [sampleModel], policies := lowBarPolicies, hasSessionStore := true }

/-- A completed session for model a with the given stored text. -/
def completeSession (text : String) : SessionRecord :=
  { status := SessionStatus.complete, responseText := some text,
    selectedModelId := some "a", attempts := [] }

/-- A world holding a completed session for request r1 whose stored response
text is empty. -/
def emptyTextSessionWorld : World :=
  { baseWorld with sessions := fun k =>
      if k = "r1" then some (completeSession "") else none }

/-- A world holding a completed session for request r1 with the stored text
cached. -/
def cachedSessionWorld : World :=
  { baseWorld with sessions := fun k =>
      if k = "r1" then some (completeSession "cached") else none }

/-- A resuming request in degrade mode with a zero threshold. -/
def resumeReq : RouterRequest :=
  { messages := [{ role := Role.user, content := "hi" }],
    taskType := TaskType.reasoning, qualityThreshold := some 0,
    maxWaitMs := some 0, attemptBudget := some 0, requestId := "r1",
    maxTokens := none, stream := false, allowDegrade := true, resume := true }

/-- A plain non-resuming, non-degrading request. -/
def plainReq : RouterRequest :=
  { messages := [{ role := Role.user, content := "hi" }],
    taskType := TaskType.reasoning, qualityThreshold := some 0,
    maxWaitMs := some 1000, attemptBudget := some 0, requestId := "r1",
    maxTokens := none, stream := false, allowDegrade := false, resume := false }

/-- The resolved context of `plainReq` against the undemanding policy. -/
def plainCtx : RouteCtx :=
  { request := plainReq, deps := oneModelDeps, policy := lowBarPolicy,
    maxWaitMs := 1000, attemptBudget := 3, threshold := 0, preferred := [],
    start := 0 }

/-- A degrade-mode request with a strict threshold. -/
def degradeReq : RouterRequest :=
  { plainReq with allowDegrade := true, qualityThreshold := some (9 / 10) }

/-- The resolved context of `degradeReq`. -/
def degradeCtx : RouteCtx :=
  { request := degradeReq, deps := oneModelDeps, policy := lowBarPolicy,
    maxWaitMs := 1000, attemptBudget := 3, threshold := 9 / 10, preferred := [],
    start := 0 }

/-- A world whose adapter always throws a rate-limit error without a
retry-after value. -/
def rateLimitWorld : World :=
  { baseWorld with adapterReplies := fun _ =>
      AdapterReply.thrown (AdapterErrKind.rateLimited none) }

/-- The judge model of the judge scenario. -/
def judgeModelDef : CandidateModel :=
  { id := "judge", provider := "p", context := 1000,
    capabilities := fun _ => some 1, costWeight := 1, enabled := true }

/-- A policy preferring only model a with a strict threshold. -/
def judgePolicy : RoutingPolicy :=
  { preferred := ["a"], minCapability := 0, qualityThreshold := 9 / 10,
    maxAttemptsPerCycle := 3, pollIntervalMs := 10, maxWaitMs := 1000,
    weights := none }

/-- A configuration enabling the judge model with consultation floor zero. -/
def judgePolicies : PoliciesConfig :=
  { routing := fun _ => none, routingDefault := judgePolicy,
    codeEvaluation := none,
    evaluationJudge := some { enabled := true, modelId := "judge", minScore := some 0 } }

/-- Dependencies for the judge scenario: the candidate and the judge. -/
def judgeDeps : RouterDeps :=
  { models := [sampleModel, judgeModelDef], policies := judgePolicies,
    hasSessionStore := false }

/-- A strict-threshold request for the judge scenario. -/
def judgeReq : RouterRequest :=
  { messages := [{ role := Role.user, content := "hi" }],
    taskType := TaskType.reasoning, qualityThreshold := some (9 / 10),
    maxWaitMs := some 1000, attemptBudget := some 0, requestId := "r2",
    maxTokens := none, stream := false, allowDegrade := false, resume := false }

/-- A world whose adapter first returns the candidate text and then the
judge's verdict of one. -/
def judgeWorld : World :=
  { baseWorld with adapterReplies := fun n =>
      if n = 0 then AdapterReply.ok { text := "hello", toolCalls := none, usage := none }
      else AdapterReply.ok { text := "1", toolCalls := none, usage := none } }

theorem lowerChars_length (s : List Char) : (lowerChars s).length = s.length := by
  simp [lowerChars]

theorem lowerChars_isEmpty (s : List Char) : (lowerChars s).isEmpty = s.isEmpty := by
  cases s <;> simp [lowerChars]

/-- A conditional increment pulled out of the branch. -/
theorem ite_add_shift (c : Prop) [Decidable c] (x a : ℚ) :
    (if c then x + a else x) = x + (if c then a else 0) := by
  split_ifs <;> simp

/-- A conditional decrement pulled out of the branch. -/
theorem ite_sub_shift (c : Prop) [Decidable c] (x a : ℚ) :
    (if c then x - a else x) = x - (if c then a else 0) := by
  split_ifs <;> simp

/-- A three-way conditional adjustment pulled out of the branches. -/
theorem ite_three_shift (c1 c2 : Prop) [Decidable c1] [Decidable c2] (x a b : ℚ) :
    (if c1 then x + a else if c2 then x - b else x) =
      x + (if c1 then a else if c2 then -b else 0) := by
  split_ifs <;> ring

/-- A conditional double increment pulled out of the branch. -/
theorem ite_add_add_shift (c : Prop) [Decidable c] (x a b : ℚ) :
    (if c then x + a + b else x) = x + (if c then a + b else 0) := by
  split_ifs <;> ring

/-- A conditional increment-or-decrement pulled out of the branches. -/
theorem ite_addsub_shift (c : Prop) [Decidable c] (x a b : ℚ) :
    (if c then x + a else x - b) = x + (if c then a else -b) := by
  split_ifs <;> ring

/-- Negation pushed inside a conditional with a zero branch. -/
theorem neg_ite_zero (c : Prop) [Decidable c] (a : ℚ) :
    -(if c then a else 0) = (if c then -a else 0) := by
  split_ifs <;> ring

/-- A conditional-within-conditional increment pulled out of the branches. -/
theorem ite_ite_add_shift (c1 c2 : Prop) [Decidable c1] [Decidable c2] (x a : ℚ) :
    (if c1 then (if c2 then x + a else x) else x) =
      x + (if c1 then (if c2 then a else 0) else 0) := by
  split_ifs <;> simp

/-- The clamp never produces a negative score. -/
theorem clamp01_nonneg (q : ℚ) : 0 ≤ clamp01 q := by
  unfold clamp01
  split_ifs with h1 h2
  · exact le_refl (0 : ℚ)
  · exact zero_le_one
  · exact le_of_not_lt h1

/-! ### Theorems for the pure claims -/

/-- C3: for every text, task type and tool-call flag, `heuristicScore` is a
pure function returning zero for empty trimmed text without tool calls, and
otherwise the clamp to the unit interval of the base (0.45 with tool calls,
0.35 without) plus the length, refusal, code and research adjustments the
claim lists. -/
theorem heuristicScore_matches_claim (text : String) (taskType : TaskType)
    (hasToolCalls : Bool) :
    heuristicScore text taskType hasToolCalls =
      heuristicScoreClaim text taskType hasToolCalls := by
  simp only [heuristicScore, heuristicScoreClaim, lowerChars_length, lowerChars_isEmpty]
  by_cases hempty : ((trimChars text.data).isEmpty && !hasToolCalls) = true
  · simp only [hempty, if_pos, if_true]
  · simp only [if_neg hempty]
    simp only [ite_three_shift, ite_add_shift, ite_sub_shift, ite_add_add_shift,
      ite_ite_add_shift, ite_addsub_shift, neg_ite_zero]

/-- C7 counterexample: a prompt consisting of the extra keyword of the source
regex is classified as code by the source, while the claim's keyword sets
classify it as reasoning. -/
theorem inferTaskType_bun_counterexample :
    inferTaskType "bun" = TaskType.code ∧
      inferTaskTypeClaim "bun" = TaskType.reasoning := by
  constructor <;> rfl

/-- C7 (amended): `inferTaskType` behaves exactly as the claim describes once
the extra keyword of the source regex is added to the code keyword set. -/
theorem inferTaskType_matches_amended_claim (text : String) :
    inferTaskType text = inferTaskTypeAmended text := rfl

/-- C8: an absent (or empty, hence falsy) threshold header and a non-numeric
one both parse to undefined; the handler then installs a quality threshold
of zero; `route`'s nullish fallback keeps that zero for every policy, so the
policy threshold never applies; and every evaluator score is nonnegative, so
every non-errored generated response passes the zero gate. -/
theorem handler_zero_threshold_gate :
    parseThreshold HeaderVal.absent = none ∧
    parseThreshold HeaderVal.nonNumeric = none ∧
    handlerQualityThreshold HeaderVal.absent = 0 ∧
    handlerQualityThreshold HeaderVal.nonNumeric = 0 ∧
    (∀ policy : RoutingPolicy,
      routeEffThreshold (some (handlerQualityThreshold HeaderVal.absent)) policy = 0) ∧
    (∀ (text : String) (taskType : TaskType) (cfg : Option CodeEvalCfg)
        (codeEvalPassed hasToolCalls : Bool) (policy : RoutingPolicy),
      routeEffThreshold (some (handlerQualityThreshold HeaderVal.absent)) policy ≤
        evaluateScore text taskType cfg codeEvalPassed hasToolCalls) := by
  refine ⟨rfl, rfl, rfl, rfl, fun policy => rfl, ?_⟩
  intro text taskType cfg codeEvalPassed hasToolCalls policy
  show (0 : ℚ) ≤ evaluateScore text taskType cfg codeEvalPassed hasToolCalls
  unfold evaluateScore
  exact clamp01_nonneg _

/-- C10: a zero (or undefined) `maxWaitMs` or `attemptBudget` falls back to
the policy value through the JS falsy-or, so a caller cannot request a zero
wait or zero attempts, while a zero quality threshold is honored and only an
undefined threshold falls back through the JS nullish operator. -/
theorem route_fallback_semantics :
    (∀ policy : RoutingPolicy, routeEffMaxWait (some 0) policy = policy.maxWaitMs) ∧
    (∀ policy : RoutingPolicy, routeEffMaxWait none policy = policy.maxWaitMs) ∧
    (∀ policy : RoutingPolicy,
      routeEffAttemptBudget (some 0) policy = policy.maxAttemptsPerCycle) ∧
    (∀ policy : RoutingPolicy,
      routeEffAttemptBudget none policy = policy.maxAttemptsPerCycle) ∧
    (∀ (v : ℚ) (policy : RoutingPolicy), v ≠ 0 → routeEffMaxWait (some v) policy = v) ∧
    (∀ policy : RoutingPolicy, routeEffThreshold (some 0) policy = 0) ∧
    (∀ (v : ℚ) (policy : RoutingPolicy), routeEffThreshold (some v) policy = v) ∧
    (∀ policy : RoutingPolicy, routeEffThreshold none policy = policy.qualityThreshold) := by
  refine ⟨fun _ => rfl, fun _ => rfl, fun _ => rfl, fun _ => rfl, ?_,
    fun _ => rfl, fun _ _ => rfl, fun _ => rfl⟩
  intro v policy hv
  simp [routeEffMaxWait, jsOrNum, hv]

/-! ### Context-fitter characterization (claim C5) -/

theorem removeFirstNonSystem_length : ∀ {msgs : List Msg} {r : Msg} {rest : List Msg},
    removeFirstNonSystem msgs = some (r, rest) → rest.length < msgs.length := by
  intro msgs
  induction msgs with
  | nil => intro r rest h; simp [removeFirstNonSystem] at h
  | cons m tail ih =>
    intro r rest h
    simp only [removeFirstNonSystem] at h
    by_cases hm : m.role = Role.system
    · simp only [hm, if_pos rfl] at h
      cases htail : removeFirstNonSystem tail with
      | none => rw [htail] at h; simp at h
      | some p =>
        rw [htail] at h
        cases p with
        | mk r0 l0 =>
          simp at h
          obtain ⟨hr, hl⟩ := h
          subst hl
          have := ih htail
          simpa using Nat.succ_lt_succ this
    · simp only [if_neg hm] at h
      simp at h
      obtain ⟨hr, hl⟩ := h
      subst hl
      simp

theorem foldl_add_length (msgs : List Msg) (acc : ℕ) :
    msgs.foldl (fun a m => a + m.content.length) acc =
      acc + (msgs.map (fun m => m.content.length)).sum := by
  induction msgs generalizing acc with
  | nil => simp
  | cons m tail ih => simp [List.foldl_cons, ih, Nat.add_assoc]

theorem initialTotalLength_eq (msgs : List Msg) :
    initialTotalLength msgs = totalLenOf msgs := by
  unfold initialTotalLength totalLenOf
  rw [foldl_add_length]
  rcases msgs with _ | ⟨m, tail⟩
  · simp
  · rcases tail with _ | ⟨m2, tail2⟩
    · simp
    · simp only [List.length_cons]
      rw [if_pos (by omega : tail2.length + 1 + 1 > 1)]
      omega

theorem remove_stats : ∀ {msgs : List Msg} {r : Msg} {rest : List Msg},
    removeFirstNonSystem msgs = some (r, rest) →
      (msgs.map (fun m => m.content.length)).sum =
          r.content.length + (rest.map (fun m => m.content.length)).sum ∧
        msgs.length = rest.length + 1 := by
  intro msgs
  induction msgs with
  | nil => intro r rest h; simp [removeFirstNonSystem] at h
  | cons m tail ih =>
    intro r rest h
    simp only [removeFirstNonSystem] at h
    by_cases hm : m.role = Role.system
    · simp only [hm, if_pos rfl] at h
      cases htail : removeFirstNonSystem tail with
      | none => rw [htail] at h; simp at h
      | some p =>
        rw [htail] at h
        cases p with
        | mk r0 l0 =>
          simp at h
          obtain ⟨hr, hl⟩ := h
          subst hr hl
          obtain ⟨hsum, hlen⟩ := ih htail
          constructor
          · simp [hsum]; omega
          · simp [hlen]
    · simp only [if_neg hm] at h
      simp at h
      obtain ⟨hr, hl⟩ := h
      subst hr hl
      simp

theorem remove_totalLen {msgs : List Msg} {r : Msg} {rest : List Msg}
    (h : removeFirstNonSystem msgs = some (r, rest)) :
    totalLenOf msgs - r.content.length - (if 1 ≤ rest.length then 1 else 0) =
      totalLenOf rest := by
  obtain ⟨hsum, hlen⟩ := remove_stats h
  unfold totalLenOf
  rw [hsum, hlen]
  split_ifs with h1 <;> omega

theorem remove_filter_system : ∀ {msgs : List Msg} {r : Msg} {rest : List Msg},
    removeFirstNonSystem msgs = some (r, rest) →
      systemOnly msgs = systemOnly rest := by
  intro msgs
  induction msgs with
  | nil => intro r rest h; simp [removeFirstNonSystem] at h
  | cons m tail ih =>
    intro r rest h
    simp only [removeFirstNonSystem] at h
    by_cases hm : m.role = Role.system
    · simp only [hm, if_pos rfl] at h
      cases htail : removeFirstNonSystem tail with
      | none => rw [htail] at h; simp at h
      | some p =>
        rw [htail] at h
        cases p with
        | mk r0 l0 =>
          simp at h
          obtain ⟨hr, hl⟩ := h
          subst hr hl
          simp [systemOnly, List.filter_cons, hm]
          exact ih htail
    · simp only [if_neg hm] at h
      simp at h
      obtain ⟨hr, hl⟩ := h
      subst hr hl
      simp [systemOnly, List.filter_cons, hm]

theorem remove_none_all_system : ∀ {msgs : List Msg},
    removeFirstNonSystem msgs = none → systemOnly msgs = msgs := by
  intro msgs
  induction msgs with
  | nil => intro h; simp [systemOnly]
  | cons m tail ih =>
    intro h
    simp only [removeFirstNonSystem] at h
    by_cases hm : m.role = Role.system
    · simp only [hm, if_pos rfl] at h
      cases htail : removeFirstNonSystem tail with
      | none =>
        have htl := ih htail
        unfold systemOnly at htl ⊢
        rw [List.filter_cons, htl]
        simp [hm]
      | some p => rw [htail] at h; cases p; simp at h
    · simp only [if_neg hm] at h
      simp at h

theorem filter_map_sum_le (p : Msg → Bool) (msgs : List Msg) :
    ((msgs.filter p).map (fun m => m.content.length)).sum ≤
      (msgs.map (fun m => m.content.length)).sum := by
  induction msgs with
  | nil => simp
  | cons m tail ih =>
    rw [List.filter_cons]
    by_cases hp : p m = true
    · rw [if_pos hp]
      simp only [List.map_cons, List.sum_cons]
      omega
    · rw [if_neg hp]
      simp only [List.map_cons, List.sum_cons]
      omega

theorem totalLenOf_systemOnly_le (msgs : List Msg) :
    totalLenOf (systemOnly msgs) ≤ totalLenOf msgs := by
  unfold totalLenOf systemOnly
  have h1 := filter_map_sum_le (fun m => decide (m.role = Role.system)) msgs
  have h2 := List.length_filter_le (fun m => decide (m.role = Role.system)) msgs
  omega

theorem estFit_mono {t1 t2 : ℕ} (h : t1 ≤ t2) (c tk : ℚ) :
    estFit t2 c tk = true → estFit t1 c tk = true := by
  simp only [estFit, decide_eq_true_eq]
  intro h2
  have hd : (t1 + 3) / 4 ≤ (t2 + 3) / 4 := Nat.div_le_div_right (by omega)
  have hc : (((t1 + 3) / 4 : ℕ) : ℚ) ≤ (((t2 + 3) / 4 : ℕ) : ℚ) := by
    exact_mod_cast hd
  linarith

theorem fitLoop_none_iff : ∀ (fuelN : ℕ) (msgs : List Msg), msgs.length < fuelN →
    ∀ (c t : ℚ) (tc : ℕ),
      (fitLoop fuelN msgs (totalLenOf msgs) c t tc = none ↔
        estFit (totalLenOf (systemOnly msgs)) c t = false) := by
  intro fuelN
  induction fuelN with
  | zero =>
    intro msgs hlen
    exact absurd hlen (Nat.not_lt_zero _)
  | succ f ih =>
    intro msgs hlen c t tc
    simp only [fitLoop]
    by_cases hfit : estFit (totalLenOf msgs) c t
    · simp only [hfit, if_pos]
      constructor
      · intro h; simp at h
      · intro h
        have hmono := estFit_mono (totalLenOf_systemOnly_le msgs) c t hfit
        rw [h] at hmono
        simp at hmono
    · simp only [hfit, Bool.false_eq_true, if_neg, if_false]
      cases hrem : removeFirstNonSystem msgs with
      | none =>
        rw [remove_none_all_system hrem]
        constructor
        · intro _
          simpa using hfit
        · intro _; trivial
      | some p =>
        cases p with
        | mk r rest =>
          have hlt := removeFirstNonSystem_length hrem
          simp only []
          rw [remove_totalLen hrem]
          rw [ih rest (by omega) c t (tc + 1), remove_filter_system hrem]

theorem fitLoop_some : ∀ (fuelN : ℕ) (msgs : List Msg), msgs.length < fuelN →
    ∀ (c t : ℚ) (tc : ℕ) (ms : List Msg) (k : ℕ),
      fitLoop fuelN msgs (totalLenOf msgs) c t tc = some (ms, k) →
        tc ≤ k ∧ ms = dropOne^[k - tc] msgs ∧ estFit (totalLenOf ms) c t = true ∧
          ∀ j < k - tc, estFit (totalLenOf (dropOne^[j] msgs)) c t = false := by
  intro fuelN
  induction fuelN with
  | zero =>
    intro msgs hlen
    exact absurd hlen (Nat.not_lt_zero _)
  | succ f ih =>
    intro msgs hlen c t tc ms k h
    simp only [fitLoop] at h
    by_cases hfit : estFit (totalLenOf msgs) c t
    · simp only [hfit, if_pos] at h
      simp at h
      obtain ⟨hms, hk⟩ := h
      subst hms hk
      refine ⟨le_refl tc, by simp, hfit, ?_⟩
      intro j hj
      omega
    · simp only [hfit, Bool.false_eq_true, if_neg, if_false] at h
      cases hrem : removeFirstNonSystem msgs with
      | none => rw [hrem] at h; simp at h
      | some p =>
        cases p with
        | mk r rest =>
          rw [hrem] at h
          simp only [] at h
          rw [remove_totalLen hrem] at h
          have hlt := removeFirstNonSystem_length hrem
          obtain ⟨hle, hms, hfits, hall⟩ := ih rest (by omega) c t (tc + 1) ms k h
          have hdrop : dropOne msgs = rest := by simp [dropOne, hrem]
          refine ⟨by omega, ?_, hfits, ?_⟩
          · have : k - tc = (k - (tc + 1)) + 1 := by omega
            rw [this, Function.iterate_succ_apply, hdrop]
            exact hms
          · intro j hj
            cases j with
            | zero =>
              simpa using (by simpa using hfit : estFit (totalLenOf msgs) c t = false)
            | succ j0 =>
              rw [Function.iterate_succ_apply, hdrop]
              exact hall j0 (by omega)

/-- C5: the fitter estimates tokens as the ceiling of a quarter of the
character total (one separator per adjacent pair) plus the requested output
tokens; it repeatedly drops the first non-system message; it returns null
exactly when even the remaining all-system list does not fit; and on a null
fit the router records a permanent attempt for that model and skips it
without calling the adapter. -/
theorem context_fitter_characterization :
    (∀ msgs : List Msg, initialTotalLength msgs = totalLenOf msgs) ∧
    (∀ (msgs : List Msg) (c t : ℚ),
      fitMessagesToContext msgs c t = none ↔
        estFit (totalLenOf (systemOnly msgs)) c t = false) ∧
    (∀ (msgs : List Msg) (c t : ℚ) (ms : List Msg) (k : ℕ),
      fitMessagesToContext msgs c t = some (ms, k) →
        ms = dropOne^[k] msgs ∧ estFit (totalLenOf ms) c t = true ∧
          ∀ j < k, estFit (totalLenOf (dropOne^[j] msgs)) c t = false) ∧
    (∀ (ctx : RouteCtx) (model : CandidateModel) (w : World),
      fitMessagesToContext ctx.request.messages model.context
          ((ctx.request.maxTokens).getD 0) = none →
        (attemptModel ctx model w).1 = none ∧
          (attemptModel ctx model w).2.adapterCalls = w.adapterCalls ∧
          (attemptModel ctx model w).2.attemptsLog =
            w.attemptsLog ++ [{ modelId := model.id, outcome := Outcome.permanent, score := none }]) := by
  refine ⟨initialTotalLength_eq, ?_, ?_, ?_⟩
  · intro msgs c t
    unfold fitMessagesToContext
    rw [initialTotalLength_eq]
    exact fitLoop_none_iff (msgs.length + 1) msgs (Nat.lt_succ_self _) c t 0
  · intro msgs c t ms k h
    unfold fitMessagesToContext at h
    rw [initialTotalLength_eq] at h
    obtain ⟨hle, hms, hfits, hall⟩ :=
      fitLoop_some (msgs.length + 1) msgs (Nat.lt_succ_self _) c t 0 ms k h
    exact ⟨by simpa using hms, hfits, by simpa using hall⟩
  · intro ctx model w hfit
    refine ⟨?_, ?_, ?_⟩
    · simp [attemptModel, tick, hfit]
    · simp only [attemptModel, tick, hfit, wRecordAttempt, pushAttempt]
      split_ifs <;> rfl
    · simp only [attemptModel, tick, hfit, wRecordAttempt, pushAttempt]
      split_ifs <;> rfl

/-! ### State-projection lemmas for the effectful operations -/

theorem tick_health (w : World) : (tick w).2.health = w.health := rfl

theorem tick_attemptsLog (w : World) : (tick w).2.attemptsLog = w.attemptsLog := rfl

theorem tick_adapterCalls (w : World) : (tick w).2.adapterCalls = w.adapterCalls := rfl

theorem adapterCall_health (w : World) : (adapterCall w).2.health = w.health := rfl

theorem adapterCall_attemptsLog (w : World) :
    (adapterCall w).2.attemptsLog = w.attemptsLog := rfl

theorem pushAttempt_health (w : World) (a : RoutingAttempt) :
    (pushAttempt w a).health = w.health := rfl

theorem pushAttempt_attemptsLog (w : World) (a : RoutingAttempt) :
    (pushAttempt w a).attemptsLog = w.attemptsLog ++ [a] := rfl

theorem wRecordResult_health_self (w : World) (id : String) (b : Bool)
    (l : Option ℚ) :
    (wRecordResult w id b l).health id = recordResultF (w.health id) b l := by
  simp [wRecordResult, setHealth]

theorem wRecordResult_attemptsLog (w : World) (id : String) (b : Bool)
    (l : Option ℚ) : (wRecordResult w id b l).attemptsLog = w.attemptsLog := rfl

theorem wMarkRateLimited_health_self (w : World) (id : String) (cd : ℚ)
    (strikes : ℕ) (lastAt : ℚ) :
    (wMarkRateLimited w id cd strikes lastAt).health id =
      markRateLimitedF (w.health id) (w.clock w.ticks) cd strikes lastAt := by
  simp [wMarkRateLimited, setHealth, tick]

theorem wMarkRateLimited_attemptsLog (w : World) (id : String) (cd : ℚ)
    (strikes : ℕ) (lastAt : ℚ) :
    (wMarkRateLimited w id cd strikes lastAt).attemptsLog = w.attemptsLog := rfl

theorem wRecordAttempt_health (w : World) (hs : Bool) (rid : String)
    (a : RoutingAttempt) : (wRecordAttempt w hs rid a).health = w.health := by
  unfold wRecordAttempt; split_ifs <;> rfl

theorem wRecordAttempt_attemptsLog (w : World) (hs : Bool) (rid : String)
    (a : RoutingAttempt) :
    (wRecordAttempt w hs rid a).attemptsLog = w.attemptsLog := by
  unfold wRecordAttempt; split_ifs <;> rfl

theorem wRecordAttempt_adapterCalls (w : World) (hs : Bool) (rid : String)
    (a : RoutingAttempt) :
    (wRecordAttempt w hs rid a).adapterCalls = w.adapterCalls := by
  unfold wRecordAttempt; split_ifs <;> rfl

theorem wRecordSessionResult_health (w : World) (hs : Bool) (rid mid : String)
    (t : String) : (wRecordSessionResult w hs rid mid t).health = w.health := by
  unfold wRecordSessionResult; split_ifs <;> rfl

theorem wRecordSessionResult_attemptsLog (w : World) (hs : Bool)
    (rid mid : String) (t : String) :
    (wRecordSessionResult w hs rid mid t).attemptsLog = w.attemptsLog := by
  unfold wRecordSessionResult; split_ifs <;> rfl

theorem wRecordBudget_health (w : World) (p : String) (t : ℚ) :
    (wRecordBudget w p t).health = w.health := rfl

theorem wRecordBudget_attemptsLog (w : World) (p : String) (t : ℚ) :
    (wRecordBudget w p t).attemptsLog = w.attemptsLog := rfl

theorem runCodeEvalF_health (w : World) (cfg : CodeEvalCfg) :
    (runCodeEvalF w cfg).2.health = w.health := by
  unfold runCodeEvalF; split_ifs <;> rfl

theorem runCodeEvalF_attemptsLog (w : World) (cfg : CodeEvalCfg) :
    (runCodeEvalF w cfg).2.attemptsLog = w.attemptsLog := by
  unfold runCodeEvalF; split_ifs <;> rfl

theorem evalWithWorld_health (w : World) (text : String) (tt : TaskType)
    (cfg : Option CodeEvalCfg) (b : Bool) :
    (evalWithWorld w text tt cfg b).2.health = w.health := by
  cases cfg with
  | none => rfl
  | some c =>
    unfold evalWithWorld
    simp only []
    split_ifs <;> simp [runCodeEvalF_health]

theorem evalWithWorld_attemptsLog (w : World) (text : String) (tt : TaskType)
    (cfg : Option CodeEvalCfg) (b : Bool) :
    (evalWithWorld w text tt cfg b).2.attemptsLog = w.attemptsLog := by
  cases cfg with
  | none => rfl
  | some c =>
    unfold evalWithWorld
    simp only []
    split_ifs <;> simp [runCodeEvalF_attemptsLog]

theorem finalizeResultF_health (ctx : RouteCtx) (model : CandidateModel)
    (resp : NormalizedResponse) (w : World) :
    (finalizeResultF ctx model resp w).2.health = w.health := by
  unfold finalizeResultF
  simp only []
  split_ifs <;> simp [tick_health, wRecordSessionResult_health, wRecordBudget_health]

theorem finalizeResultF_attemptsLog (ctx : RouteCtx) (model : CandidateModel)
    (resp : NormalizedResponse) (w : World) :
    (finalizeResultF ctx model resp w).2.attemptsLog = w.attemptsLog := by
  unfold finalizeResultF
  simp only []
  split_ifs <;>
    simp [tick_attemptsLog, wRecordSessionResult_attemptsLog, wRecordBudget_attemptsLog]

theorem finalizeResultF_fst_noStream (ctx : RouteCtx) (model : CandidateModel)
    (resp : NormalizedResponse) (w : World)
    (hstream : ctx.request.stream = false) :
    (finalizeResultF ctx model resp w).1 =
      RouteOutcome.textOut resp model.id
        (buildMetadata w.attemptsLog model.id ctx.request.taskType) := by
  unfold finalizeResultF
  simp only []
  rw [hstream]
  simp only [Bool.false_and, Bool.false_eq_true, if_false]
  split_ifs <;>
    simp [tick_attemptsLog, wRecordSessionResult_attemptsLog, wRecordBudget_attemptsLog]

theorem acceptPath_snd_health_self (ctx : RouteCtx) (model : CandidateModel)
    (resp : NormalizedResponse) (b : Bool) (lat sc : ℚ) (w : World) :
    (acceptPath ctx model resp b lat sc w).2.health model.id =
      recordResultF (w.health model.id) b (some lat) := by
  unfold acceptPath
  simp [finalizeResultF_health, wRecordAttempt_health, pushAttempt_health,
    wRecordResult_health_self]

theorem acceptPath_snd_attemptsLog (ctx : RouteCtx) (model : CandidateModel)
    (resp : NormalizedResponse) (b : Bool) (lat sc : ℚ) (w : World) :
    (acceptPath ctx model resp b lat sc w).2.attemptsLog =
      w.attemptsLog ++
        [{ modelId := model.id, outcome := Outcome.success, score := some sc }] := by
  unfold acceptPath
  simp [finalizeResultF_attemptsLog, wRecordAttempt_attemptsLog,
    pushAttempt_attemptsLog, wRecordResult_attemptsLog]

theorem acceptPath_fst_noStream (ctx : RouteCtx) (model : CandidateModel)
    (resp : NormalizedResponse) (b : Bool) (lat sc : ℚ) (w : World)
    (hstream : ctx.request.stream = false) :
    (acceptPath ctx model resp b lat sc w).1 =
      some (RouteOutcome.textOut resp model.id
        (buildMetadata
          (w.attemptsLog ++
            [{ modelId := model.id, outcome := Outcome.success, score := some sc }])
          model.id ctx.request.taskType)) := by
  unfold acceptPath
  simp only []
  rw [finalizeResultF_fst_noStream _ _ _ _ hstream]
  simp [wRecordAttempt_attemptsLog, pushAttempt_attemptsLog, wRecordResult_attemptsLog]

/-! ### The timeout error (claim C1) -/

theorem finalize_isResult (ctx : RouteCtx) (model : CandidateModel)
    (resp : NormalizedResponse) (w : World) :
    isResultOutcome (finalizeResultF ctx model resp w).1 := by
  simp only [finalizeResultF]
  split_ifs <;> exact trivial

theorem acceptPath_fst (ctx : RouteCtx) (model : CandidateModel)
    (resp : NormalizedResponse) (b : Bool) (lat sc : ℚ) (w : World) :
    (acceptPath ctx model resp b lat sc w).1 =
      some ((finalizeResultF ctx model resp
        (wRecordAttempt (pushAttempt (wRecordResult w model.id b (some lat))
          { modelId := model.id, outcome := Outcome.success, score := some sc })
          ctx.deps.hasSessionStore ctx.request.requestId
          { modelId := model.id, outcome := Outcome.success, score := some sc })).1) := rfl

theorem acceptPath_isResult {ctx : RouteCtx} {model : CandidateModel}
    {resp : NormalizedResponse} {b : Bool} {lat sc : ℚ} {w : World} {out : RouteOutcome}
    (h : (acceptPath ctx model resp b lat sc w).1 = some out) :
    isResultOutcome out := by
  rw [acceptPath_fst] at h
  have heq := Option.some.inj h
  exact heq ▸ finalize_isResult _ _ _ _

theorem attemptModel_isResult {ctx : RouteCtx} {m : CandidateModel} {w : World}
    {out : RouteOutcome} (h : (attemptModel ctx m w).1 = some out) :
    isResultOutcome out := by
  simp only [attemptModel] at h
  split at h
  · simp at h
  · split at h
    · split at h
      · simp at h
        exact h ▸ trivial
      · simp at h
      · simp at h
    · split at h
      · simp at h
      · simp at h
      · split at h
        · exact acceptPath_isResult h
        · split at h
          · exact acceptPath_isResult h
          · split at h
            · split at h
              · exact acceptPath_isResult h
              · simp at h
            · simp at h

theorem runAttempts_isResult {ctx : RouteCtx} : ∀ {models : List CandidateModel}
    {w : World} {out : RouteOutcome},
    (runAttempts ctx models w).1 = some out → isResultOutcome out := by
  intro models
  induction models with
  | nil => intro w out h; simp [runAttempts] at h
  | cons m rest ih =>
    intro w out h
    simp only [runAttempts] at h
    rcases ha : (attemptModel ctx m w).1 with _ | o
    · rw [ha] at h
      exact ih h
    · rw [ha] at h
      simp at h
      exact h ▸ attemptModel_isResult ha

theorem tick_lastTime (w : World) : (tick w).2.lastTime = (tick w).1 := rfl

theorem routeLoop_noSuitable : ∀ (fuel : ℕ) (ctx : RouteCtx) (w : World) (r : ℚ)
    (w' : World), routeLoop ctx fuel w = (RouteOutcome.noSuitable r, w') →
      r = 10000 ∧ ctx.start + ctx.maxWaitMs ≤ w'.lastTime := by
  intro fuel
  induction fuel with
  | zero => intro ctx w r w' h; simp [routeLoop] at h
  | succ fuel ih =>
    intro ctx w r w' h
    simp only [routeLoop] at h
    split at h
    case isTrue hc =>
      split at h
      case h_1 o ho =>
        have hres := runAttempts_isResult ho
        have h1 := congrArg Prod.fst h
        simp at h1
        rw [h1] at hres
        exact absurd hres (by exact id)
      case h_2 ho =>
        split at h
        case isTrue hc2 =>
          have h1 := congrArg Prod.fst h
          have h2 := congrArg Prod.snd h
          simp at h1 h2
          refine ⟨h1.symm, ?_⟩
          rw [← h2, tick_lastTime]
          have := hc2
          linarith
        case isFalse hc2 =>
          exact ih _ _ _ _ h
    case isFalse hc =>
      have h1 := congrArg Prod.fst h
      have h2 := congrArg Prod.snd h
      simp at h1 h2
      refine ⟨h1.symm, ?_⟩
      rw [← h2, tick_lastTime]
      linarith [not_lt.mp hc]

/-- C1: whenever `route` gives up, the error it throws carries a retry-after
of ten seconds; at that moment the last wall-clock reading is at least the
effective deadline (request start plus effective `maxWaitMs`, the router
never gives up early); and the HTTP handler maps exactly this error to a 503
whose body carries the no-suitable-model code and the error's retry-after
value.  `(tick w).1` is the start-time reading `route` makes first. -/
theorem no_suitable_model_timeout (fuel : ℕ) (request : RouterRequest)
    (deps : RouterDeps) (w : World) (r : ℚ) (w' : World)
    (h : route fuel request deps w = (RouteOutcome.noSuitable r, w')) :
    r = 10000 ∧
      (tick w).1 + routeEffMaxWait request.maxWaitMs
          (policyForTask deps.policies request.taskType) ≤ w'.lastTime ∧
      handleRouteFailure (RouteFailure.noSuitableModel r) =
        { status := 503, errorCode := "no_suitable_model_available",
          retryAfterMs := some r } := by
  simp only [route] at h
  split at h
  · split at h
    · split at h
      · simp at h
      · obtain ⟨h1, h2⟩ := routeLoop_noSuitable _ _ _ _ _ h
        exact ⟨h1, h2, rfl⟩
    · obtain ⟨h1, h2⟩ := routeLoop_noSuitable _ _ _ _ _ h
      exact ⟨h1, h2, rfl⟩
  · obtain ⟨h1, h2⟩ := routeLoop_noSuitable _ _ _ _ _ h
    exact ⟨h1, h2, rfl⟩

unseal Rat.add Rat.sub Rat.mul Rat.inv Rat.ofScientific in
/-- Witness for C1: with no models and a three-millisecond deadline the
route run ends in the timeout error, no earlier than the deadline. -/
theorem no_suitable_model_timeout_witness :
    (route 4 timeoutReq noModelDeps baseWorld).1 = RouteOutcome.noSuitable 10000 ∧
      (tick baseWorld).1 + routeEffMaxWait timeoutReq.maxWaitMs
          (policyForTask noModelDeps.policies timeoutReq.taskType) ≤
        (route 4 timeoutReq noModelDeps baseWorld).2.lastTime := by
  have h := no_suitable_model_timeout 4 timeoutReq noModelDeps baseWorld 10000
    (route 4 timeoutReq noModelDeps baseWorld).2 (by rfl)
  exact ⟨by rfl, h.2.1⟩

unseal Rat.add Rat.sub Rat.mul Rat.inv Rat.ofScientific in
/-- Witness for C5 at the concrete trim scenario: fitting three messages
into a three-token window drops the oldest user message, and the result is
one trimming step from the input and fits. -/
theorem context_fitter_characterization_witness :
    ([{ role := Role.system, content := "sys" },
      { role := Role.user, content := "bb" }] : List Msg) = dropOne^[1] sampleMsgs ∧
      estFit (totalLenOf [{ role := Role.system, content := "sys" },
        { role := Role.user, content := "bb" }]) 3 0 = true ∧
      estFit (totalLenOf (dropOne^[0] sampleMsgs)) 3 0 = false := by
  have h := context_fitter_characterization.2.2.1 sampleMsgs 3 0
    [{ role := Role.system, content := "sys" }, { role := Role.user, content := "bb" }]
    1 (by decide)
  exact ⟨h.1, h.2.1, h.2.2 0 (by decide)⟩

unseal Rat.add Rat.sub Rat.mul Rat.inv Rat.ofScientific in
/-- C4 counterexample: a resuming request whose request id names a completed
session with an empty stored text is not served from the session: the router
runs the loop, invokes the adapter once, and returns the adapter's text. -/
theorem resume_empty_text_counterexample :
    (emptyTextSessionWorld.sessions resumeReq.requestId).map
        (fun s => s.status) = some SessionStatus.complete ∧
      (emptyTextSessionWorld.sessions resumeReq.requestId).bind
        (fun s => s.responseText) = some "" ∧
      resumeReq.resume = true ∧
      (route 5 resumeReq oneModelDeps emptyTextSessionWorld).2.adapterCalls = 1 ∧
      (route 5 resumeReq oneModelDeps emptyTextSessionWorld).1 =
        RouteOutcome.textOut { text := "hello", toolCalls := none, usage := none }
          "a"
          (buildMetadata
            [{ modelId := "a", outcome := Outcome.success, score := some (mkRat 15 100) }]
            "a" TaskType.reasoning) := by
  refine ⟨by decide, by decide, by decide, by decide, by decide⟩

/-- C4 (amended): a resuming request whose request id names a completed
session with a non-empty stored text is returned byte-identical from the
session, with no adapter invocation; only the start-time clock reading is
consumed. -/
theorem resume_complete_session (fuel : ℕ) (request : RouterRequest)
    (deps : RouterDeps) (w : World) (s : SessionRecord) (t : String)
    (hres : request.resume = true) (hstore : deps.hasSessionStore = true)
    (hs : w.sessions request.requestId = some s)
    (hst : s.status = SessionStatus.complete)
    (ht : s.responseText = some t) (hne : t ≠ "") :
    route fuel request deps w =
      (RouteOutcome.textOut { text := t, toolCalls := none, usage := none }
        (s.selectedModelId.getD "unknown")
        (buildMetadata s.attempts (s.selectedModelId.getD "unknown")
          request.taskType),
       (tick w).2) ∧
      (route fuel request deps w).2.adapterCalls = w.adapterCalls := by
  have hie : t.isEmpty = false := by
    by_contra hcon
    have hie2 : t.isEmpty = true := by
      revert hcon; cases t.isEmpty <;> simp
    exact hne ((String.isEmpty_iff t).mp hie2)
  have htr : truthyText s.responseText = true := by
    rw [ht]
    simp [truthyText, hie]
  have hcond : (request.resume && deps.hasSessionStore) = true := by
    rw [hres, hstore]; rfl
  have hroute : route fuel request deps w =
      (RouteOutcome.textOut { text := t, toolCalls := none, usage := none }
        (s.selectedModelId.getD "unknown")
        (buildMetadata s.attempts (s.selectedModelId.getD "unknown")
          request.taskType),
       (tick w).2) := by
    simp only [route, hcond, eq_self_iff_true, if_true]
    rw [show (tick w).2.sessions = w.sessions from rfl, hs]
    simp only []
    rw [if_pos (And.intro hst htr), ht]
    rfl
  exact ⟨hroute, by rw [hroute]; rfl⟩

unseal Rat.add Rat.sub Rat.mul Rat.inv Rat.ofScientific in
/-- Witness for C4 (amended) at the cached-session scenario. -/
theorem resume_complete_session_witness :
    route 5 resumeReq oneModelDeps cachedSessionWorld =
      (RouteOutcome.textOut { text := "cached", toolCalls := none, usage := none }
        "a" (buildMetadata [] "a" TaskType.reasoning),
       (tick cachedSessionWorld).2) ∧
      (route 5 resumeReq oneModelDeps cachedSessionWorld).2.adapterCalls =
        cachedSessionWorld.adapterCalls := by
  have h := resume_complete_session 5 resumeReq oneModelDeps cachedSessionWorld
    (completeSession "cached") "cached" (by decide) (by decide) (by rfl) (by decide)
    (by rfl) (by decide)
  exact h

/-- C2: a caught rate-limit error sets, for the failing model, a cooldown of
the error's retry-after value when provided and otherwise the capped
exponential backoff, with the strike count incremented inside the sliding
one-minute window and reset to one outside it, persisted through
`markRateLimited` with the new strike count and the current reading as
`lastRateLimitAt` (the EMA failure that follows is also recorded); the
second conjunct wires this handler into the attempt loop: a thrown adapter
error makes the attempt continue with exactly this handling. -/
theorem rate_limit_cooldown :
    (∀ (ctx : RouteCtx) (model : CandidateModel) (aStart : ℚ)
        (retryAfterMs : Option ℚ) (w : World),
      let h0 := w.health model.id
      let tLat := w.clock w.ticks
      let now := w.clock (w.ticks + 1)
      let tStore := w.clock (w.ticks + 2)
      let strikes :=
        if now - h0.lastRateLimitAt ≤ 60000 then h0.rateLimitStrikes + 1 else 1
      let cooldownMs :=
        retryAfterMs.getD (min ((2000 * 2 ^ (strikes - 1) : ℕ) : ℚ) 60000)
      let wAfter := handleAdapterThrow ctx model aStart
        (some (AdapterErrKind.rateLimited retryAfterMs)) w
      wAfter.health model.id =
          recordResultF (markRateLimitedF h0 tStore cooldownMs strikes now)
            false (some (tLat - aStart)) ∧
        wAfter.attemptsLog = w.attemptsLog ++
          [{ modelId := model.id, outcome := Outcome.rateLimit, score := none }]) ∧
    (∀ (ctx : RouteCtx) (model : CandidateModel) (w : World) (e : AdapterErrKind)
        (fitted : List Msg × ℕ),
      ctx.request.stream = false →
      fitMessagesToContext ctx.request.messages model.context
          ((ctx.request.maxTokens).getD 0) = some fitted →
      w.adapterReplies w.adapterCalls = AdapterReply.thrown e →
      attemptModel ctx model w =
        (none, handleAdapterThrow ctx model (tick w).1 (some e)
          (adapterCall (tick w).2).2)) := by
  constructor
  · intro ctx model aStart retryAfterMs w
    simp only [handleAdapterThrow, tick, adapterCall]
    constructor
    · simp [wRecordAttempt_health, pushAttempt_health, wRecordResult_health_self,
        wMarkRateLimited_health_self, wMarkRateLimited, setHealth, tick,
        decide_eq_true_eq]
    · simp [wRecordAttempt_attemptsLog, wRecordResult_attemptsLog,
        pushAttempt_attemptsLog, wMarkRateLimited_attemptsLog]
  · intro ctx model w e fitted hstream hfit hreply
    simp only [attemptModel, hfit]
    rw [hstream]
    simp only [Bool.false_and, Bool.false_eq_true, if_false]
    simp only [adapterCall, tick]
    rw [hreply]

unseal Rat.add Rat.sub Rat.mul Rat.inv Rat.ofScientific in
/-- Witness for C2: a rate-limit error with no retry-after against a fresh
model yields one strike and a two-second cooldown anchored at the store's
clock reading. -/
theorem rate_limit_cooldown_witness :
    (attemptModel plainCtx sampleModel rateLimitWorld).2.health "a" =
        recordResultF (markRateLimitedF defaultHealth 3 2000 1 2) false (some 1) ∧
      (attemptModel plainCtx sampleModel rateLimitWorld).2.attemptsLog =
        [{ modelId := "a", outcome := Outcome.rateLimit, score := none }] := by
  have hwire := rate_limit_cooldown.2 plainCtx sampleModel rateLimitWorld
    (AdapterErrKind.rateLimited none) ([{ role := Role.user, content := "hi" }], 0)
    (by decide) (by decide) (by decide)
  rw [hwire]
  exact ⟨by decide, by decide⟩

/-- C9: a non-streaming attempt in degrade mode whose generate call returns
normally is accepted and returned as the result with a success log entry,
but the health store records the EMA observation with success equal to the
score reaching the threshold: a below-threshold response that is still
returned to the client is recorded as a failure observation, multiplying the
rolling success rate by four fifths, which never increases it. -/
theorem allow_degrade_records_gate (ctx : RouteCtx) (model : CandidateModel)
    (w : World) (resp : NormalizedResponse) (fitted : List Msg × ℕ)
    (hstream : ctx.request.stream = false)
    (hdeg : ctx.request.allowDegrade = true)
    (hfit : fitMessagesToContext ctx.request.messages model.context
      ((ctx.request.maxTokens).getD 0) = some fitted)
    (hreply : w.adapterReplies w.adapterCalls = AdapterReply.ok resp) :
    let latency := w.clock (w.ticks + 1) - w.clock w.ticks
    let sw := evalWithWorld (tick (adapterCall (tick w).2).2).2 resp.text
      ctx.request.taskType ctx.deps.policies.codeEvaluation (respHasToolCalls resp)
    let score := sw.1
    attemptModel ctx model w =
        acceptPath ctx model resp (decide (ctx.threshold ≤ score)) latency score sw.2 ∧
      (attemptModel ctx model w).1 =
        some (RouteOutcome.textOut resp model.id
          (buildMetadata
            (sw.2.attemptsLog ++
              [{ modelId := model.id, outcome := Outcome.success, score := some score }])
            model.id ctx.request.taskType)) ∧
      (attemptModel ctx model w).2.attemptsLog =
        w.attemptsLog ++
          [{ modelId := model.id, outcome := Outcome.success, score := some score }] ∧
      (attemptModel ctx model w).2.health model.id =
        recordResultF (w.health model.id) (decide (ctx.threshold ≤ score))
          (some latency) ∧
      (score < ctx.threshold →
        ((attemptModel ctx model w).2.health model.id).rollingSuccessRate =
          (w.health model.id).rollingSuccessRate * (8 / 10)) ∧
      (score < ctx.threshold → 0 ≤ (w.health model.id).rollingSuccessRate →
        ((attemptModel ctx model w).2.health model.id).rollingSuccessRate ≤
          (w.health model.id).rollingSuccessRate) := by
  intro latency sw score
  have hstep : attemptModel ctx model w =
      acceptPath ctx model resp (decide (ctx.threshold ≤ score)) latency score sw.2 := by
    simp only [attemptModel, hfit]
    rw [hstream]
    simp only [Bool.false_and, Bool.false_eq_true, if_false]
    simp only [adapterCall, tick]
    rw [hreply]
    simp only [hdeg, if_true]
    rfl
  have hhealth : (attemptModel ctx model w).2.health model.id =
      recordResultF (w.health model.id) (decide (ctx.threshold ≤ score))
        (some latency) := by
    rw [hstep, acceptPath_snd_health_self]
    have : sw.2.health = w.health := by
      simp [sw, evalWithWorld_health, tick_health, adapterCall_health]
    rw [this]
  refine ⟨hstep, ?_, ?_, hhealth, ?_, ?_⟩
  · rw [hstep, acceptPath_fst_noStream _ _ _ _ _ _ _ hstream]
  · rw [hstep, acceptPath_snd_attemptsLog]
    have : sw.2.attemptsLog = w.attemptsLog := by
      simp [sw, evalWithWorld_attemptsLog, tick_attemptsLog, adapterCall_attemptsLog]
    rw [this]
  · intro hlt
    rw [hhealth]
    have hd : decide (ctx.threshold ≤ score) = false := by
      simp [decide_eq_false_iff_not, not_le, hlt]
    rw [hd]
    simp [recordResultF]
  · intro hlt hnn
    rw [hhealth]
    have hd : decide (ctx.threshold ≤ score) = false := by
      simp [decide_eq_false_iff_not, not_le, hlt]
    rw [hd]
    simp only [recordResultF]
    have : (w.health model.id).rollingSuccessRate * (8 / 10) +
        (if (false : Bool) = true then (1 : ℚ) else 0) * (2 / 10) =
        (w.health model.id).rollingSuccessRate * (8 / 10) := by
      simp
    rw [this]
    nlinarith [hnn]

unseal Rat.add Rat.sub Rat.mul Rat.inv Rat.ofScientific in
/-- Witness for C9: against a strict nine-tenths threshold, a degrade-mode
attempt returning a short greeting is returned to the client with a success
log entry, while the rolling success rate drops from one to four fifths. -/
theorem allow_degrade_records_gate_witness :
    (attemptModel degradeCtx sampleModel baseWorld).1 =
        some (RouteOutcome.textOut
          { text := "hello", toolCalls := none, usage := none } "a"
          (buildMetadata
            [{ modelId := "a", outcome := Outcome.success, score := some (mkRat 15 100) }]
            "a" TaskType.reasoning)) ∧
      ((attemptModel degradeCtx sampleModel baseWorld).2.health
          sampleModel.id).rollingSuccessRate = mkRat 8 10 := by
  have h := allow_degrade_records_gate degradeCtx sampleModel baseWorld
    { text := "hello", toolCalls := none, usage := none }
    ([{ role := Role.user, content := "hi" }], 0)
    (by decide) (by decide) (by decide) (by decide)
  refine ⟨?_, ?_⟩
  · rw [h.2.1]
    decide
  · rw [h.2.2.2.1]
    decide
theorem route_fallback_semantics_witness :
    routeEffMaxWait (some 5000) samplePolicy = 5000 ∧
      routeEffThreshold (some 0) samplePolicy = 0 := by
  exact ⟨route_fallback_semantics.2.2.2.2.1 5000 samplePolicy (by norm_num),
    route_fallback_semantics.2.2.2.2.2.1 samplePolicy⟩

/-! ### Attempt-log accounting (claim C6)

The balance `invCount` — attempt-log length plus judge consultations minus
adapter invocations minus context-unfit skips — is preserved by every
world operation of the router, hence by `route` itself. -/

theorem invCount_tick (w : World) : invCount (tick w).2 = invCount w := rfl

theorem invCount_pushAttempt (w : World) (a : RoutingAttempt) :
    invCount (pushAttempt w a) = invCount w + 1 := by
  simp only [invCount, pushAttempt, List.length_append, List.length_cons,
    List.length_nil]
  push_cast
  ring

theorem invCount_adapterCall (w : World) :
    invCount (adapterCall w).2 = invCount w - 1 := by
  simp only [invCount, adapterCall]
  push_cast
  ring

theorem invCount_wMarkRateLimited (w : World) (id : String) (cd : ℚ)
    (strikes : ℕ) (lastAt : ℚ) :
    invCount (wMarkRateLimited w id cd strikes lastAt) = invCount w := rfl

theorem invCount_wMarkDegraded (w : World) (id : String) (ms : ℚ) :
    invCount (wMarkDegraded w id ms) = invCount w := rfl

theorem invCount_wRecordResult (w : World) (id : String) (b : Bool)
    (l : Option ℚ) : invCount (wRecordResult w id b l) = invCount w := rfl

theorem invCount_wRecordBudget (w : World) (p : String) (t : ℚ) :
    invCount (wRecordBudget w p t) = invCount w := rfl

theorem invCount_wRecordAttempt (w : World) (hs : Bool) (rid : String)
    (a : RoutingAttempt) :
    invCount (wRecordAttempt w hs rid a) = invCount w := by
  unfold wRecordAttempt
  split_ifs <;> rfl

theorem invCount_wRecordSessionResult (w : World) (hs : Bool) (rid mid : String)
    (t : String) :
    invCount (wRecordSessionResult w hs rid mid t) = invCount w := by
  unfold wRecordSessionResult
  split_ifs <;> rfl

theorem invCount_runCodeEvalF (w : World) (cfg : CodeEvalCfg) :
    invCount (runCodeEvalF w cfg).2 = invCount w := by
  unfold runCodeEvalF
  split_ifs <;> rfl

theorem invCount_evalWithWorld (w : World) (text : String) (tt : TaskType)
    (cfg : Option CodeEvalCfg) (b : Bool) :
    invCount (evalWithWorld w text tt cfg b).2 = invCount w := by
  cases cfg with
  | none => rfl
  | some c =>
    unfold evalWithWorld
    simp only []
    split_ifs <;> simp [invCount_runCodeEvalF]

theorem invCount_finalizeResultF (ctx : RouteCtx) (model : CandidateModel)
    (resp : NormalizedResponse) (w : World) :
    invCount (finalizeResultF ctx model resp w).2 = invCount w := by
  unfold finalizeResultF
  simp only []
  split_ifs <;>
    simp [invCount_tick, invCount_wRecordSessionResult, invCount_wRecordBudget]

theorem invCount_acceptPath (ctx : RouteCtx) (model : CandidateModel)
    (resp : NormalizedResponse) (b : Bool) (lat sc : ℚ) (w : World) :
    invCount (acceptPath ctx model resp b lat sc w).2 = invCount w + 1 := by
  unfold acceptPath
  simp only []
  simp [invCount_finalizeResultF, invCount_wRecordAttempt, invCount_pushAttempt,
    invCount_wRecordResult]

theorem invCount_evalFailPath (ctx : RouteCtx) (model : CandidateModel)
    (sc lat : ℚ) (w : World) :
    invCount (evalFailPath ctx model sc lat w) = invCount w + 1 := by
  unfold evalFailPath
  simp [invCount_wMarkDegraded, invCount_wRecordAttempt, invCount_pushAttempt,
    invCount_wRecordResult]

theorem invCount_maybeJudgeScoreF (w : World) (deps : RouterDeps)
    (cand : CandidateModel) (sc th : ℚ) :
    invCount (maybeJudgeScoreF w deps cand sc th).2 = invCount w := by
  unfold maybeJudgeScoreF
  split
  · rfl
  · split_ifs
    · rfl
    · rfl
    · simp only []
      split_ifs
      · rfl
      · split
        · rfl
        · split <;> (simp only [invCount, adapterCall]; push_cast; ring)

theorem invCount_handleAdapterThrow (ctx : RouteCtx) (model : CandidateModel)
    (aStart : ℚ) (err : Option AdapterErrKind) (w : World) :
    invCount (handleAdapterThrow ctx model aStart err w) = invCount w + 1 := by
  unfold handleAdapterThrow
  simp only []
  cases err with
  | none =>
    simp [invCount_wRecordAttempt, invCount_wRecordResult, invCount_pushAttempt,
      invCount_tick]
  | some e =>
    cases e with
    | rateLimited r =>
      simp [invCount_wRecordAttempt, invCount_wRecordResult, invCount_pushAttempt,
        invCount_wMarkRateLimited, invCount_tick]
    | quotaExceeded =>
      simp [invCount_wRecordAttempt, invCount_wRecordResult, invCount_pushAttempt,
        invCount_tick]
    | transientErr =>
      simp [invCount_wRecordAttempt, invCount_wRecordResult, invCount_pushAttempt,
        invCount_tick]
    | permanentErr msg =>
      simp only []
      split_ifs <;>
        simp [invCount_wRecordAttempt, invCount_wRecordResult,
          invCount_pushAttempt, invCount_wMarkDegraded, invCount_tick]

theorem invCount_attemptModel (ctx : RouteCtx) (m : CandidateModel) (w : World) :
    invCount (attemptModel ctx m w).2 = invCount w := by
  unfold attemptModel
  simp only []
  split
  · -- the context-unfit skip: one log entry, one skip, no adapter call
    simp only [invCount, wRecordAttempt, pushAttempt, tick]
    split_ifs <;>
      (simp only [List.length_append, List.length_cons, List.length_nil]
       push_cast
       ring)
  · split
    · -- streaming passthrough
      split
      · simp [invCount, wRecordAttempt, pushAttempt, adapterCall, tick]
        split_ifs <;>
          (simp only [List.length_append, List.length_cons, List.length_nil]
           push_cast
           ring)
      · simp [invCount_handleAdapterThrow, invCount_adapterCall, invCount_tick]
      · simp [invCount_handleAdapterThrow, invCount_adapterCall, invCount_tick]
    · -- generate path
      split
      · simp [invCount_handleAdapterThrow, invCount_adapterCall, invCount_tick]
      · simp [invCount_handleAdapterThrow, invCount_adapterCall, invCount_tick]
      · split_ifs
        · simp [invCount_acceptPath, invCount_evalWithWorld, invCount_adapterCall,
            invCount_tick]
        · simp [invCount_acceptPath, invCount_evalWithWorld, invCount_adapterCall,
            invCount_tick]
        · split
          · split_ifs
            · simp [invCount_acceptPath, invCount_maybeJudgeScoreF,
                invCount_evalWithWorld, invCount_adapterCall, invCount_tick]
            · simp [invCount_evalFailPath, invCount_maybeJudgeScoreF,
                invCount_evalWithWorld, invCount_adapterCall, invCount_tick]
          · simp [invCount_evalFailPath, invCount_maybeJudgeScoreF,
              invCount_evalWithWorld, invCount_adapterCall, invCount_tick]

theorem invCount_runAttempts (ctx : RouteCtx) :
    ∀ (models : List CandidateModel) (w : World),
      invCount (runAttempts ctx models w).2 = invCount w := by
  intro models
  induction models with
  | nil => intro w; rfl
  | cons m rest ih =>
    intro w
    simp only [runAttempts]
    split
    · simp [invCount_attemptModel]
    · rw [ih, invCount_attemptModel]

theorem invCount_cooldownPhase : ∀ (models : List CandidateModel) (w : World),
    invCount (cooldownPhase models w).2 = invCount w := by
  intro models
  induction models with
  | nil => intro w; rfl
  | cons m rest ih =>
    intro w
    simp only [cooldownPhase]
    split_ifs <;> simp [ih, invCount_tick]

theorem invCount_scorePhase (ctx : RouteCtx) :
    ∀ (models : List CandidateModel) (w : World),
      invCount (scorePhase ctx models w).2 = invCount w := by
  intro models
  induction models with
  | nil => intro w; rfl
  | cons m rest ih =>
    intro w
    simp only [scorePhase]
    split_ifs <;> simp [ih, invCount_tick]

theorem invCount_routeLoop (ctx : RouteCtx) : ∀ (fuel : ℕ) (w : World),
    invCount (routeLoop ctx fuel w).2 = invCount w := by
  intro fuel
  induction fuel with
  | zero => intro w; rfl
  | succ f ih =>
    intro w
    simp only [routeLoop]
    split
    · split
      · simp [invCount_runAttempts, invCount_scorePhase, invCount_cooldownPhase,
          invCount_tick]
      · split
        · simp [invCount_tick, invCount_runAttempts, invCount_scorePhase,
            invCount_cooldownPhase]
        · rw [ih]
          simp [invCount_tick, invCount_runAttempts, invCount_scorePhase,
            invCount_cooldownPhase]
    · simp [invCount_tick]

theorem invCount_route (fuel : ℕ) (request : RouterRequest) (deps : RouterDeps)
    (w : World) : invCount (route fuel request deps w).2 = invCount w := by
  unfold route
  simp only []
  split
  · split
    · split
      · simp [invCount_tick]
      · simp [invCount_routeLoop, invCount_tick]
    · simp [invCount_routeLoop, invCount_tick]
  · simp [invCount_routeLoop, invCount_tick]

unseal Rat.add Rat.sub Rat.mul Rat.inv Rat.ofScientific in
/-- C6 counterexample: in the judge scenario — a below-threshold candidate
whose score the enabled judge model rescues — the request makes two provider
invocations (one candidate attempt plus one judge consultation) but the
attempt log holds a single entry, so log length does not equal the number of
provider invocations. -/
theorem attempt_log_counterexample :
    judgeWorld.attemptsLog = [] ∧ judgeWorld.adapterCalls = 0 ∧
      (route 5 judgeReq judgeDeps judgeWorld).2.attemptsLog.length = 1 ∧
      (route 5 judgeReq judgeDeps judgeWorld).2.adapterCalls = 2 ∧
      (route 5 judgeReq judgeDeps judgeWorld).2.judgeCalls = 1 ∧
      (route 5 judgeReq judgeDeps judgeWorld).2.unfitSkips = 0 := by
  refine ⟨by decide, by decide, by decide, by decide, by decide, by decide⟩

/-- C6 (amended): every route run preserves the instrumentation balance
`invCount`, so for a request starting from fresh instrumentation the
attempt-log length equals the number of provider invocations made for
candidate attempts — adapter invocations minus judge consultations — plus
the number of candidates skipped because their messages could not fit the
context window. -/
theorem attempt_log_accounting :
    (∀ (fuel : ℕ) (request : RouterRequest) (deps : RouterDeps) (w : World),
      invCount (route fuel request deps w).2 = invCount w) ∧
    (∀ (fuel : ℕ) (request : RouterRequest) (deps : RouterDeps) (w : World),
      w.attemptsLog = [] → w.adapterCalls = 0 → w.judgeCalls = 0 →
      w.unfitSkips = 0 →
        ((route fuel request deps w).2.attemptsLog.length : ℤ) =
          ((route fuel request deps w).2.adapterCalls : ℤ)
            - (route fuel request deps w).2.judgeCalls
            + (route fuel request deps w).2.unfitSkips) := by
  refine ⟨invCount_route, ?_⟩
  intro fuel request deps w h1 h2 h3 h4
  have hpres := invCount_route fuel request deps w
  have hzero : invCount w = 0 := by
    simp [invCount, h1, h2, h3, h4]
  rw [hzero] at hpres
  unfold invCount at hpres
  omega

unseal Rat.add Rat.sub Rat.mul Rat.inv Rat.ofScientific in
/-- Witness for C6 (amended) at the judge scenario: one log entry against
two adapter invocations, of which one is the judge consultation, with no
unfit skips. -/
theorem attempt_log_accounting_witness :
    ((route 5 judgeReq judgeDeps judgeWorld).2.attemptsLog.length : ℤ) =
      ((route 5 judgeReq judgeDeps judgeWorld).2.adapterCalls : ℤ)
        - (route 5 judgeReq judgeDeps judgeWorld).2.judgeCalls
        + (route 5 judgeReq judgeDeps judgeWorld).2.unfitSkips :=
  attempt_log_accounting.2 5 judgeReq judgeDeps judgeWorld rfl rfl rfl rfl

end Switchboard
